import Mathlib

/-!
Verification of the message arbitration and lifecycle engine of the
Rolling-Subtitle display (`src/gui/message_manager.py`,
`src/gui/main_window.py`, `src/utils/message_processor.py`).

The Python code is shallowly embedded:

* `MessageItem` carries an extra `pyid : Nat` field modelling CPython
  object identity (`id(obj)`); the source keys its insertion-order
  bookkeeping dict and its "currently displayed" pointer by `id`.
  Theorems about states with several live objects assume distinct live
  objects have distinct `pyid`s, which is what CPython guarantees.
* wall-clock times (`time.time()`, parsed shock times) are modelled as
  integers (seconds); the source only compares and subtracts them.
* `timezone_utils.parse_display_time` and the regex that extracts a
  shock time from a message text are passed as explicit function
  parameters (`parseT`, `extractT`); all theorems hold for every such
  function, matching the fact that the arbitration logic only consumes
  their `Option` results.
* the per-vendor text formatter `MessageProcessor._format_*` is passed
  as a parameter `fmt`; the admission-control wrapper around it
  (`format_message`'s JMA-cancel and validity gates) is embedded.
-/

namespace RollingSubtitle

/-- The static source → priority table `SOURCE_PRIORITY` of
`src/gui/message_manager.py` (lower number = higher priority). -/
def SOURCE_PRIORITY : List (String × Nat) :=
  [("weatheralarm", 1),
   ("cenc", 2), ("ningxia", 3), ("guangxi", 4), ("shanxi", 5), ("beijing", 6),
   ("cwa", 7), ("p2pquake", 8), ("p2pquake_tsunami", 8), ("hko", 9),
   ("usgs", 10), ("emsc", 11), ("bcsf", 13), ("gfz", 14), ("usp", 15),
   ("kma", 16), ("fssn", 17),
   ("cea", 0), ("cea-pr", 0), ("sichuan", 0), ("cwa-eew", 0), ("jma", 0),
   ("sa", 0), ("kma-eew", 0),
   ("wolfx_sc_eew", 0), ("wolfx_jma_eew", 0), ("wolfx_fj_eew", 0),
   ("wolfx_cenc_eew", 0), ("wolfx_cwa_eew", 0), ("wolfx_all_eew", 0),
   ("wolfx_cenc_eqlist", 8), ("wolfx_jma_eqlist", 8),
   ("nied", 0),
   ("fanstudio", 99),
   ("default", 99)]

/-- `get_source_priority`: dictionary lookup with default 99 (the
`'default'` entry). -/
def get_source_priority (source : String) : Nat :=
  (((SOURCE_PRIORITY.find? (fun p => p.1 == source)).map (fun p => p.2)).getD 99)

/-! ### `_normalize_warning_text` -/

/-- Characters matched by `\s` in the source's regexes (ASCII whitespace
plus the common unicode spaces appearing in the feeds). -/
def isPySpace (c : Char) : Bool :=
  c == ' ' || c == '\t' || c == '\n' || c == '\r' ||
  c == '\x0b' || c == '\x0c' || c == ' ' || c == '　'

/-- Match the tail of `第\s*\d+\s*报` (everything after the `第` already
consumed): skip spaces, one or more digits, spaces, then `报`; returns
the remaining characters on success. Maximal munch is exact here since
the three character classes are disjoint. -/
def matchBaoTail (cs : List Char) : Option (List Char) :=
  let cs1 := cs.dropWhile isPySpace
  let digits := cs1.takeWhile Char.isDigit
  if digits.isEmpty then none
  else
    match (cs1.dropWhile Char.isDigit).dropWhile isPySpace with
    | '报' :: rest => some rest
    | _ => none

/-- `re.sub(r'第\s*\d+\s*报', '', text)`: left-to-right, non-overlapping
removal. `fuel` bounds the recursion; every step consumes at least one
character, so `fuel = cs.length` is always enough. -/
def stripBaoAux : Nat → List Char → List Char
  | 0, cs => cs
  | _ + 1, [] => []
  | fuel + 1, c :: rest =>
    if c == '第' then
      match matchBaoTail rest with
      | some rest' => stripBaoAux fuel rest'
      | none => c :: stripBaoAux fuel rest
    else c :: stripBaoAux fuel rest

def stripBao (s : String) : String :=
  String.mk (stripBaoAux s.data.length s.data)

/-- Does `cs` start with `pat`? Returns the remainder after the match. -/
def dropPat : List Char → List Char → Option (List Char)
  | [], cs => some cs
  | _ :: _, [] => none
  | p :: ps, c :: cs => if c == p then dropPat ps cs else none

/-- Python `str.replace(pat, '')` (every call site of `str.replace` in
`_normalize_warning_text` replaces with the empty string): left-to-right
non-overlapping removal of `pat`. `fuel = cs.length` suffices since each
step consumes at least one character. -/
def pyRemoveAllAux (pat : List Char) : Nat → List Char → List Char
  | 0, cs => cs
  | _ + 1, [] => []
  | fuel + 1, c :: rest =>
    match dropPat pat (c :: rest) with
    | some rest' => pyRemoveAllAux pat fuel rest'
    | none => c :: pyRemoveAllAux pat fuel rest

def pyRemoveAll (pat s : String) : String :=
  String.mk (pyRemoveAllAux pat.data s.data.length s.data)

/-- `re.sub(r'\s+', '', s)`: removing every whitespace run is removing
every whitespace character. -/
def stripAllSpace (s : String) : String :=
  String.mk (s.data.filter (fun c => !isPySpace c))

/-- Python `str.strip()` (on a string already free of whitespace this is
the identity, but it is part of the source). -/
def pyStrip (s : String) : String :=
  String.mk ((s.data.dropWhile isPySpace).reverse.dropWhile isPySpace |>.reverse)

/-- `_normalize_warning_text` of `src/gui/message_manager.py`. -/
def _normalize_warning_text (text : String) : String :=
  if text == "" then ""
  else
    let n := stripBao text
    let n := pyRemoveAll "最终报" n
    let n := pyRemoveAll "Final Report" n
    let n := pyRemoveAll "final report" n
    let n := pyRemoveAll "FINAL REPORT" n
    let n := stripAllSpace n
    let n := pyRemoveAll "，" (pyRemoveAll "," n)
    let n := pyRemoveAll "." (pyRemoveAll "。" n)
    pyStrip n

/-! ### `MessageItem` -/

/-- `MessageItem` dataclass. `pyid` models object identity (see module
comment); `timestamp` and `first_displayed_at` are seconds as integers.
The `parsed_data` dict (opaque payload used only by external rendering
helpers) is not represented. -/
structure MessageItem where
  pyid : Nat
  text : String
  color : String
  timestamp : Int
  message_type : String := "report"
  source : String := ""
  image_path : Option String := none
  event_id : String := ""
  shock_time : Option String := none
  first_displayed_at : Option Int := none
deriving DecidableEq, Repr

/-- Python truthiness of an `Optional[str]` field (`None` and `""` are
falsy). -/
def truthyOpt : Option String → Bool
  | none => false
  | some s => s != ""

/-- `MessageItem.is_same_event`. -/
def is_same_event (self other : MessageItem) : Bool :=
  if self.source != other.source then false
  else if self.event_id != "" && other.event_id != "" then
    self.event_id == other.event_id
  else if self.event_id == "" && other.event_id == "" then
    let ns := _normalize_warning_text self.text
    let no := _normalize_warning_text other.text
    if ns != "" && ns == no then true
    else if truthyOpt self.shock_time && truthyOpt other.shock_time &&
            self.shock_time == other.shock_time then true
    else if ns != "" && no != "" then
      (if (self.timestamp - other.timestamp).natAbs < 30 &&
          ns.data.take 80 == no.data.take 80 then true else false)
    else false
  else false

/-! ### `MessageBuffer`

The buffer state: the message list, the `_message_add_order` dict
(an association list `pyid → order`, exactly mirroring the source's
dict keyed by `id(msg)`), the `_add_order_counter`, the round-robin
index and the `_current_displaying_msg_id` pointer. -/

structure MessageBuffer where
  buffer : List MessageItem
  max_size : Nat
  current_index : Nat
  use_priority : Bool
  add_order : List (Nat × Nat)
  add_order_counter : Nat
  current_displaying_msg_id : Option Nat
deriving DecidableEq, Repr

/-- `MessageBuffer(max_size=20, use_priority=True)` as constructed by the
arbiter. -/
def initBuffer : MessageBuffer :=
  { buffer := [], max_size := 20, current_index := 0, use_priority := true,
    add_order := [], add_order_counter := 0, current_displaying_msg_id := none }

/-- Dict lookup `d.get(k)`. -/
def lookupOrder (d : List (Nat × Nat)) (k : Nat) : Option Nat :=
  (d.find? (fun p => p.1 == k)).map (fun p => p.2)

/-- Dict write `d[k] = v` (update in place or append). -/
def setOrder (d : List (Nat × Nat)) (k v : Nat) : List (Nat × Nat) :=
  if d.any (fun p => p.1 == k) then
    d.map (fun p => if p.1 == k then (k, v) else p)
  else d ++ [(k, v)]

/-- Dict delete `del d[k]`. -/
def delOrder (d : List (Nat × Nat)) (k : Nat) : List (Nat × Nat) :=
  d.filter (fun p => p.1 != k)

/-- The sort key of `_sort_by_priority`:
`(priority, add_order)`, a missing order record standing for `+∞`
(`float('inf')` in the source). -/
def sortKey (d : List (Nat × Nat)) (m : MessageItem) : Nat × Option Nat :=
  (get_source_priority m.source, lookupOrder d m.pyid)

/-- `≤` on order tokens, `none` being `+∞`. -/
def ordLe : Option Nat → Option Nat → Bool
  | none, none => true
  | none, some _ => false
  | some _, none => true
  | some a, some b => a ≤ b

/-- Lexicographic `≤` on sort keys. -/
def keyLe : Nat × Option Nat → Nat × Option Nat → Bool
  | (p1, o1), (p2, o2) => p1 < p2 || (p1 == p2 && ordLe o1 o2)

/-- The total preorder `list.sort` sorts by (as a `Prop` for Mathlib's
stable `insertionSort`). -/
def msgLe (d : List (Nat × Nat)) (a b : MessageItem) : Prop :=
  keyLe (sortKey d a) (sortKey d b) = true

instance (d : List (Nat × Nat)) : DecidableRel (msgLe d) :=
  fun a b => decEq (keyLe (sortKey d a) (sortKey d b)) true

/-- The stable ascending sort `self.buffer.sort(key=sort_key)`. -/
def sortMsgs (d : List (Nat × Nat)) (l : List MessageItem) : List MessageItem :=
  l.insertionSort (msgLe d)

/-- `_sort_by_priority`: stable-sort the buffer, then re-locate the
currently-displayed message. The source finds the current object in the
pre-sort list and then its position in the sorted list; since sorting
permutes, a direct position lookup in the sorted list is equivalent.
When the pointer is unset or dangling, the index is reset to 0 if out of
range. -/
def _sort_by_priority (b : MessageBuffer) : MessageBuffer :=
  match b.current_displaying_msg_id.bind
      (fun i => (sortMsgs b.add_order b.buffer).findIdx? (fun m => m.pyid == i)) with
  | some j => { b with buffer := sortMsgs b.add_order b.buffer, current_index := j }
  | none =>
    if (sortMsgs b.add_order b.buffer).length ≤ b.current_index then
      { b with buffer := sortMsgs b.add_order b.buffer, current_index := 0 }
    else { b with buffer := sortMsgs b.add_order b.buffer }

/-- Re-sort only when `use_priority` is set (the tail of every mutating
operation). -/
def sortIfPriority (b : MessageBuffer) : MessageBuffer :=
  if b.use_priority then _sort_by_priority b else b

/-- The capacity check at the head of every insertion path:
`if len(self.buffer) >= self.max_size: pop(0)`, dict cleanup, and the
index adjustment. (For `max_size = 0` and an empty buffer the source
would raise on `pop(0)`; that state is never constructed.) -/
def evictIfFull (b : MessageBuffer) : MessageBuffer :=
  if b.max_size ≤ b.buffer.length then
    match b.buffer with
    | [] => b
    | r :: rest =>
      { b with buffer := rest,
               add_order := delOrder b.add_order r.pyid,
               current_index := if 0 < b.current_index then b.current_index - 1
                                else b.current_index }
  else b

/-- Record the arrival order of a new message and append it. -/
def recordAndAppend (b : MessageBuffer) (m : MessageItem) : MessageBuffer :=
  { b with buffer := b.buffer ++ [m],
           add_order := setOrder b.add_order m.pyid (b.add_order_counter + 1),
           add_order_counter := b.add_order_counter + 1 }

/-- `MessageBuffer.add`. -/
def addMsg (b : MessageBuffer) (m : MessageItem) : MessageBuffer :=
  sortIfPriority (recordAndAppend (evictIfFull b) m)

/-- Transfer the replaced entry's insertion-order token to the new
object (`_message_add_order[new] = _message_add_order[old]; del ...`),
falling back to a fresh counter value when the old object has no
record. -/
def carryOrder (b : MessageBuffer) (oldId newId : Nat) : MessageBuffer :=
  match lookupOrder b.add_order oldId with
  | some o => { b with add_order := setOrder (delOrder b.add_order oldId) newId o }
  | none => { b with add_order := setOrder b.add_order newId (b.add_order_counter + 1),
                     add_order_counter := b.add_order_counter + 1 }

/-- Replace the first entry whose `source` matches, returning the old
entry and the new list (`replace_by_source`'s scan). -/
def replaceFirstBySrc (buf : List MessageItem) (m : MessageItem) :
    Option (MessageItem × List MessageItem) :=
  match buf with
  | [] => none
  | e :: rest =>
    if e.source == m.source then some (e, m :: rest)
    else (replaceFirstBySrc rest m).map (fun p => (p.1, e :: p.2))

/-- `MessageBuffer.replace_by_source`. -/
def replace_by_source (b : MessageBuffer) (m : MessageItem) :
    MessageBuffer × Bool :=
  match replaceFirstBySrc b.buffer m with
  | some (old, newbuf) =>
    (sortIfPriority (carryOrder { b with buffer := newbuf } old.pyid m.pyid), true)
  | none => (sortIfPriority (recordAndAppend (evictIfFull b) m), false)

/-- The weather image-path carry-over of `batch_replace_by_source`
(lines 537–546): a weather update without an image path keeps the
replaced entry's image path. -/
def weatherCarry (old m : MessageItem) : MessageItem :=
  if m.message_type == "weather" && !truthyOpt m.image_path &&
     truthyOpt old.image_path then
    { m with image_path := old.image_path }
  else m

/-- Replace the first entry with matching `source`, applying the weather
image carry-over (the batch variant's scan). -/
def replaceFirstBySrcW (buf : List MessageItem) (m : MessageItem) :
    Option (MessageItem × List MessageItem) :=
  match buf with
  | [] => none
  | e :: rest =>
    if e.source == m.source then some (e, weatherCarry e m :: rest)
    else (replaceFirstBySrcW rest m).map (fun p => (p.1, e :: p.2))

/-- One step of `batch_replace_by_source`'s main loop (no per-step
re-sort; the batch sorts once at the end). -/
def batchStepBySource (b : MessageBuffer) (m : MessageItem) :
    MessageBuffer × Bool :=
  match replaceFirstBySrcW b.buffer m with
  | some (old, newbuf) =>
    (carryOrder { b with buffer := newbuf } old.pyid m.pyid, true)
  | none => (recordAndAppend (evictIfFull b) m, false)

/-- Keep the newer of two same-source messages inside one batch
(`source_to_latest_msg`: strict timestamp comparison, first-occurrence
position). -/
def updateLatestBySrc : List MessageItem → MessageItem → Option (List MessageItem)
  | [], _ => none
  | x :: xs, m =>
    if x.source == m.source then
      some ((if m.timestamp > x.timestamp then m else x) :: xs)
    else (updateLatestBySrc xs m).map (fun l => x :: l)

/-- The batch's per-source dedup (`source_to_latest_msg` dict build). -/
def dedupBySource (ms : List MessageItem) : List MessageItem :=
  ms.foldl (fun acc m =>
    match updateLatestBySrc acc m with
    | some acc' => acc'
    | none => acc ++ [m]) []

/-- `MessageBuffer.batch_replace_by_source`: dedup the batch by source,
replace-or-append each unique message, then sort once; the result flags
are mapped back to the original message list through the per-source
result table. -/
def batch_replace_by_source (b : MessageBuffer) (ms : List MessageItem) :
    MessageBuffer × List Bool :=
  let uniq := dedupBySource ms
  let step := fun (p : MessageBuffer × List Bool) (m : MessageItem) =>
    let (b', r) := batchStepBySource p.1 m
    (b', p.2 ++ [r])
  let (b1, res) := uniq.foldl step (b, [])
  let table := uniq.zip res
  (sortIfPriority b1,
   ms.map (fun m =>
     (((table.find? (fun p => p.1.source == m.source)).map (fun p => p.2)).getD false)))

/-- `MessageBuffer.find_by_source`. -/
def find_by_source (b : MessageBuffer) (source : String) : Option MessageItem :=
  b.buffer.find? (fun m => m.source == source)

/-- `MessageBuffer.get_current`. -/
def get_current (b : MessageBuffer) : Option MessageItem × MessageBuffer :=
  if b.buffer.isEmpty then
    (none, { b with current_displaying_msg_id := none })
  else
    match b.current_displaying_msg_id.bind
        (fun i => b.buffer.findIdx? (fun m => m.pyid == i)) with
    | some j => ((b.buffer.get? j), { b with current_index := j })
    | none =>
      let idx := if b.buffer.length ≤ b.current_index then 0 else b.current_index
      match b.buffer.get? idx with
      | some m => (some m, { b with current_index := idx,
                                    current_displaying_msg_id := some m.pyid })
      | none => (none, b)

/-- The `next_index` computation of `_get_next_by_priority` (applied to
the already re-sorted buffer): the index after the located current
message, wrapping; 0 when the current message cannot be located. -/
def nextIndexOf (b1 : MessageBuffer) : Nat :=
  match b1.current_displaying_msg_id.bind
      (fun i => b1.buffer.findIdx? (fun m => m.pyid == i)) with
  | some ci => (ci + 1) % b1.buffer.length
  | none => 0

/-- `MessageBuffer._get_next_by_priority`: re-sort, locate the current
message by identity, step to the following index (wrapping to 0, also
when the current message cannot be located). -/
def _get_next_by_priority (b : MessageBuffer) : Option MessageItem × MessageBuffer :=
  if b.buffer.isEmpty then
    (none, { b with current_displaying_msg_id := none })
  else
    match (_sort_by_priority b).buffer.get? (nextIndexOf (_sort_by_priority b)) with
    | some m =>
      (some m, { _sort_by_priority b with
                   current_index := nextIndexOf (_sort_by_priority b),
                   current_displaying_msg_id := some m.pyid })
    | none => (none, _sort_by_priority b)

/-- `MessageBuffer.get_next`. -/
def get_next (b : MessageBuffer) : Option MessageItem × MessageBuffer :=
  if b.buffer.isEmpty then
    (none, { b with current_displaying_msg_id := none })
  else if !b.use_priority then
    match b.buffer.get? ((b.current_index + 1) % b.buffer.length) with
    | some m =>
      (some m, { b with current_index := (b.current_index + 1) % b.buffer.length,
                        current_displaying_msg_id := some m.pyid })
    | none => (none, b)
  else _get_next_by_priority b

/-- `k` successive `get_next` calls, collecting the returned messages. -/
def getNextTrace : MessageBuffer → Nat → List MessageItem × MessageBuffer
  | b, 0 => ([], b)
  | b, n + 1 =>
    ((get_next b).1.toList ++ (getNextTrace (get_next b).2 n).1,
     (getNextTrace (get_next b).2 n).2)

/-! ### Display arbiter (`MainWindow`) -/

/-- The slice of `MessageConfig` the arbitration core reads. -/
structure MessageConfig where
  warning_shock_validity_seconds : Int := 300
  warning_min_display_seconds : Int := 300
  warning_color : String := "#FF0000"
deriving DecidableEq, Repr

/-- The fields of a `parsed_data` dict consumed by admission control;
the remaining payload is only seen by the abstracted formatter. Defaults
are the `dict.get` defaults of the source. -/
structure ParsedData where
  type : String := "report"
  source_type : String := ""
  cancel : Bool := false
  event_id : String := ""
  shock_time : String := ""
deriving DecidableEq, Repr

/-- `MessageProcessor._is_warning_valid`: admission-side shock-time
window. `parseT` stands for `timezone_utils.parse_display_time`
(returning seconds in the display timezone), `now` for
`timezone_utils.now_in_display_tz()`. Unparseable or absent times are
valid by default. -/
def _is_warning_valid (cfg : MessageConfig) (parseT : String → Option Int)
    (now : Int) (shock_time_str : String) : Bool :=
  if shock_time_str == "" then true
  else
    match parseT shock_time_str with
    | none => true
    | some t => decide (now - t ≤ cfg.warning_shock_validity_seconds)

/-- `MessageProcessor.format_message` for warnings: the JMA-cancel gate,
the validity gate, then the per-vendor formatter `fmt`
(`_format_warning_message` etc.), rejecting blank results. -/
def format_message (fmt : ParsedData → Option String) (cfg : MessageConfig)
    (parseT : String → Option Int) (now : Int) (pd : ParsedData) :
    Option String :=
  if pd.type == "warning" then
    if pd.source_type == "jma" && pd.cancel then none
    else if !(_is_warning_valid cfg parseT now pd.shock_time) then none
    else
      match fmt pd with
      | some r => if pyStrip r == "" then none else some r
      | none => none
  else fmt pd

/-- `MainWindow._is_warning_still_valid`: display-side validity.
Once first displayed, valid exactly while the minimum display window is
open; before first display, the admission-side shock-time window is
re-checked (`extractT` standing for the regex fallback that recovers a
shock time from the message text). -/
def _is_warning_still_valid (cfg : MessageConfig)
    (parseT : String → Option Int) (extractT : String → Option String)
    (now : Int) (message : MessageItem) : Bool :=
  match message.first_displayed_at with
  | some fda => decide (now - fda < cfg.warning_min_display_seconds)
  | none =>
    let sts := match message.shock_time with
      | some s => if s == "" then extractT message.text else some s
      | none => extractT message.text
    match sts with
    | none => true
    | some s =>
      match parseT s with
      | none => true
      | some t => decide (now - t ≤ cfg.warning_shock_validity_seconds)

/-- One `DisplaySink.UpdateText` invocation emitted by the arbiter. -/
structure DisplayCall where
  text : String
  color : String
  image_path : Option String
  force : Bool
deriving DecidableEq, Repr

/-- The arbiter's mutable state: the two priority buffers, the display
mode (`None` at startup), the displayed / pending message aliases, the
re-entrancy flag, the sink's scrolling flag, and the wall clock. -/
structure ArbiterState where
  warningBuffer : MessageBuffer
  reportBuffer : MessageBuffer
  current_display_type : Option String
  current_displaying_message : Option MessageItem
  pending_update_message : Option MessageItem
  switching_to_report : Bool
  is_scrolling : Bool
  now : Int
deriving DecidableEq, Repr

/-- `ScrollingText.update_text` admission: rejected only when a scroll is
in progress and `force` is unset; a successful call starts a scroll. -/
def updateTextOk (isScrolling force : Bool) : Bool :=
  force || !isScrolling

/-- Mutating `message.first_displayed_at` in place: every alias of the
same object (same `pyid`) sees the write; other objects do not. -/
def writeFdaById (l : List MessageItem) (pid : Nat) (fda : Option Int) :
    List MessageItem :=
  l.map (fun m => if m.pyid == pid then { m with first_displayed_at := fda } else m)

/-- `MainWindow._switch_to_warning_mode`. Locates `message` in the
warning buffer by identity or `is_same_event` and repositions the
round-robin pointer, then emits `update_text(..., force=force_interrupt)`;
on success records the mode, the displayed message and (for a first-time
warning) `first_displayed_at`. -/
def _switch_to_warning_mode (st : ArbiterState) (message : MessageItem)
    (force_interrupt : Bool) : ArbiterState × List DisplayCall :=
  let wb := st.warningBuffer
  let wb :=
    match wb.buffer.findIdx? (fun m => m.pyid == message.pyid || is_same_event m message) with
    | some i =>
      { wb with current_index := i,
                current_displaying_msg_id := (wb.buffer.get? i).map (fun m => m.pyid) }
    | none => { wb with current_displaying_msg_id := some message.pyid }
  let st := { st with warningBuffer := wb }
  let call : DisplayCall :=
    ⟨message.text, message.color, message.image_path, force_interrupt⟩
  if updateTextOk st.is_scrolling force_interrupt then
    let message' :=
      if message.message_type == "warning" && message.first_displayed_at == none then
        { message with first_displayed_at := some st.now }
      else message
    let wb' := { st.warningBuffer with
                 buffer := writeFdaById st.warningBuffer.buffer message.pyid
                             message'.first_displayed_at }
    ({ st with warningBuffer := wb',
               current_display_type := some "warning",
               current_displaying_message := some message',
               pending_update_message := none,
               is_scrolling := true }, [call])
  else
    ({ st with current_display_type := some "warning",
               current_displaying_message := some message }, [call])

/-- `MainWindow._do_switch_to_report`: display `current_msg` with
`force = not is_scrolling`; on success record Report mode and clear the
pending update; always clear the re-entrancy flag. -/
def _do_switch_to_report (st : ArbiterState) (current_msg : MessageItem) :
    ArbiterState × List DisplayCall :=
  let force := !st.is_scrolling
  let call : DisplayCall :=
    ⟨current_msg.text, current_msg.color, current_msg.image_path, force⟩
  if updateTextOk st.is_scrolling force then
    ({ st with current_display_type := some "report",
               current_displaying_message := some current_msg,
               pending_update_message := none,
               is_scrolling := true,
               switching_to_report := false }, [call])
  else
    ({ st with switching_to_report := false }, [call])

/-- `MainWindow._switch_to_report_mode`. In Warning mode (the demotion
path) it resets the report round-robin **index** to 0 and displays the
head entry; the `_current_displaying_msg_id` identity pointer of the
report buffer is left untouched. -/
def _switch_to_report_mode (st : ArbiterState) : ArbiterState × List DisplayCall :=
  if st.current_display_type == some "warning" then
    if st.switching_to_report then (st, [])
    else if 0 < st.reportBuffer.buffer.length then
      if !st.is_scrolling then
        let rb := { st.reportBuffer with current_index := 0 }
        match rb.buffer.head? with
        | some current_msg =>
          _do_switch_to_report
            { st with reportBuffer := rb, switching_to_report := true } current_msg
        | none => ({ st with switching_to_report := false }, [])
      else (st, [])
    else ({ st with switching_to_report := false }, [])
  else if st.switching_to_report then (st, [])
  else ({ st with switching_to_report := false }, [])

/-- `MainWindow._show_cancellation_notice`: reuse the cancelled
message's `【...】` organization head when present, else a default built
from the source name, and force the notice onto the display. -/
def noticeHead (source_name : String) (cancelled : Option MessageItem) : String :=
  match cancelled with
  | some cm =>
    if cm.text != "" then
      match cm.text.splitOn "】" with
      | first :: _ :: _ => first ++ "】"
      | _ => "【" ++ source_name ++ "预警】"
    else "【" ++ source_name ++ "预警】"
  | none => "【" ++ source_name ++ "预警】"

def _show_cancellation_notice (cfg : MessageConfig) (st : ArbiterState)
    (source_name : String) (cancelled : Option MessageItem) :
    ArbiterState × List DisplayCall :=
  let notice_text := noticeHead source_name cancelled ++ "收到取消报，撤回当前预警信息"
  let call : DisplayCall := ⟨notice_text, cfg.warning_color, none, true⟩
  ({ st with current_displaying_message := none,
             pending_update_message := none,
             current_display_type := some "warning",
             is_scrolling := true }, [call])

/-- The tail of the jma-cancel branch after the cancellation notice:
hand over to Report mode when the warning buffer emptied, else advance
to the next warning (displayed only between scrolls). -/
def jmaAfterNotice (st : ArbiterState) (calls : List DisplayCall) :
    ArbiterState × List DisplayCall :=
  if st.warningBuffer.buffer.length == 0 then
    if 0 < st.reportBuffer.buffer.length && !st.switching_to_report then
      let (st', calls') := _switch_to_report_mode st
      (st', calls ++ calls')
    else (st, calls)
  else
    let (next_msg, wb') := get_next st.warningBuffer
    let st := { st with warningBuffer := wb' }
    match next_msg with
    | some nm =>
      if !st.is_scrolling then
        let (st', calls') := _switch_to_warning_mode st nm false
        (st', calls ++ calls')
      else (st, calls)
    | none => (st, calls)

/-- The JMA-cancel branch of `MainWindow.on_message_received` for a
non-empty `event_id`: remove every `(jma, event_id)` entry from the
warning buffer, clamp the index, and — when the displayed message was
among the removed — show the cancellation notice and hand over to the
next warning or to Report mode. -/
def jmaCancelBranch (cfg : MessageConfig) (st : ArbiterState) (eid : String) :
    ArbiterState × List DisplayCall :=
  let currentRemoved :=
    match st.current_displaying_message with
    | some m => m.source == "jma" && m.event_id == eid
    | none => false
  let wb := st.warningBuffer
  let newbuf := wb.buffer.filter (fun m => !(m.source == "jma" && m.event_id == eid))
  let ci := if newbuf.length ≤ wb.current_index then 0 else wb.current_index
  let wb := { wb with buffer := newbuf, current_index := ci }
  let st := { st with warningBuffer := wb }
  if currentRemoved then
    let (st, calls) :=
      _show_cancellation_notice cfg st "jma" st.current_displaying_message
    jmaAfterNotice st calls
  else (st, [])

/-- The outcome of one `on_message_received` call: the new arbiter
state, the `MessageItem` pushed onto the event queue (if any), and the
display calls emitted synchronously. -/
structure RecvResult where
  st : ArbiterState
  enqueued : Option MessageItem
  calls : List DisplayCall
deriving DecidableEq, Repr

/-- `MainWindow.on_message_received`. `fmt` abstracts the per-vendor
formatters, `colorFn` abstracts `get_message_color`, `weatherImg`
abstracts `get_weather_image_path`, `parseT` abstracts
`timezone_utils.parse_display_time`; `newPyid` is the identity of the
freshly constructed `MessageItem`. -/
def on_message_received (fmt : ParsedData → Option String)
    (colorFn : String → ParsedData → String)
    (weatherImg : ParsedData → Option String)
    (cfg : MessageConfig) (parseT : String → Option Int) (newPyid : Nat)
    (st : ArbiterState) (source_name : String) (pd : ParsedData) : RecvResult :=
  let mt := pd.type
  if mt == "warning" && source_name == "jma" && pd.cancel then
    if pd.event_id != "" then
      let (st', calls) := jmaCancelBranch cfg st pd.event_id
      ⟨st', none, calls⟩
    else ⟨st, none, []⟩
  else if mt == "warning" && !(_is_warning_valid cfg parseT st.now pd.shock_time) then
    ⟨st, none, []⟩
  else
    match format_message fmt cfg parseT st.now pd with
    | none => ⟨st, none, []⟩
    | some message =>
      let color := colorFn mt pd
      let image_path := if mt == "weather" then weatherImg pd else none
      let item : MessageItem :=
        { pyid := newPyid, text := message, color := color, timestamp := st.now,
          message_type := mt, source := source_name, image_path := image_path,
          event_id := pd.event_id,
          shock_time := if mt == "warning" then some pd.shock_time else none,
          first_displayed_at := none }
      ⟨st, some item, []⟩

/-- `sorted(warning_messages, key=get_source_priority)[0]`: Python's
sort is stable, so this is the first message attaining the minimal
priority. -/
def minByPriority : List MessageItem → Option MessageItem
  | [] => none
  | m :: rest =>
    some (rest.foldl
      (fun best x =>
        if get_source_priority x.source < get_source_priority best.source then x
        else best) m)

/-- The warning-message block of the `process_messages` tick
(`main_window.py` 1022–1080). In Report/initial mode: batch-insert, then
force-interrupt with the highest-priority incoming warning. In Warning
mode: batch-insert silently; switch (non-forced, only between scrolls)
to the buffer head when some incoming warning is a different event than
the displayed one. -/
def processWarningMessages (st : ArbiterState) (ws : List MessageItem) :
    ArbiterState × List DisplayCall :=
  if ws.isEmpty then (st, [])
  else if st.current_display_type == some "report" ||
          st.current_display_type == none then
    let wb := (batch_replace_by_source st.warningBuffer ws).1
    let st := { st with warningBuffer := wb }
    match minByPriority ws with
    | some first_warning => _switch_to_warning_mode st first_warning true
    | none => (st, [])
  else
    let wb := (batch_replace_by_source st.warningBuffer ws).1
    let st := { st with warningBuffer := wb }
    let need_switch :=
      match st.current_displaying_message with
      | none => true
      | some cm =>
        if cm.message_type != "warning" then true
        else ws.any (fun m => !(is_same_event m cm))
    if need_switch then
      match st.warningBuffer.buffer.head? with
      | some first_warning =>
        if !st.is_scrolling then
          let (st', calls) := _switch_to_warning_mode st first_warning false
          ({ st' with current_display_type := some "warning" }, calls)
        else (st, [])
      | none => (st, [])
    else (st, [])

/-- `MainWindow._clean_expired_warnings`: partition the warning buffer by
`_is_warning_still_valid`; when anything expired, install the valid
remainder and clamp the index; report whether a demotion to Report mode
is due (buffer emptied while displaying a warning). -/
def _clean_expired_warnings (cfg : MessageConfig)
    (parseT : String → Option Int) (extractT : String → Option String)
    (st : ArbiterState) : ArbiterState × Bool :=
  let validMsgs := st.warningBuffer.buffer.filter
    (fun m => _is_warning_still_valid cfg parseT extractT st.now m)
  if validMsgs.length < st.warningBuffer.buffer.length then
    let wb : MessageBuffer := { st.warningBuffer with buffer := validMsgs }
    let wb : MessageBuffer :=
      if wb.buffer.length ≤ wb.current_index then { wb with current_index := 0 }
      else wb
    let st' := { st with warningBuffer := wb }
    if validMsgs.length == 0 && st.current_display_type == some "warning" then
      (st', true)
    else (st', false)
  else (st, false)

/-! ## General lemmas -/

theorem filter_eq_self_of_length_le {α : Type} (p : α → Bool) :
    ∀ l : List α, l.length ≤ (l.filter p).length → l.filter p = l := by
  intro l
  induction l with
  | nil => intro _; rfl
  | cons a l ih =>
    intro h
    by_cases hpa : p a = true
    · rw [List.filter_cons_of_pos hpa] at h ⊢
      simp only [List.length_cons] at h
      rw [ih (Nat.le_of_succ_le_succ h)]
    · exfalso
      rw [List.filter_cons_of_neg hpa] at h
      have := List.length_filter_le p l
      simp only [List.length_cons] at h
      omega

/-! ## Claim C2: display-time validity and the expiry sweep -/

/-- C2: once `first_displayed_at` is set, `_is_warning_still_valid` is
`True` exactly while `now - first_displayed_at` is below
`warning_min_display_seconds` (whatever `shock_time` holds, i.e. for
every parser and extractor); hence an expiry sweep keeps such a message
exactly under the same condition — never removed earlier, always
removed afterwards. -/
theorem C2_min_display_time (cfg : MessageConfig) (parseT : String → Option Int)
    (extractT : String → Option String) (st : ArbiterState)
    (msg : MessageItem) (t : Int)
    (hmem : msg ∈ st.warningBuffer.buffer)
    (hfda : msg.first_displayed_at = some t) :
    (_is_warning_still_valid cfg parseT extractT st.now msg = true ↔
       st.now - t < cfg.warning_min_display_seconds) ∧
    (msg ∈ (_clean_expired_warnings cfg parseT extractT st).1.warningBuffer.buffer ↔
       st.now - t < cfg.warning_min_display_seconds) := by
  have hvalid : _is_warning_still_valid cfg parseT extractT st.now msg = true ↔
      st.now - t < cfg.warning_min_display_seconds := by
    unfold _is_warning_still_valid
    rw [hfda]
    simp
  refine ⟨hvalid, ?_⟩
  have hmemf : msg ∈ st.warningBuffer.buffer.filter
      (fun m => _is_warning_still_valid cfg parseT extractT st.now m) ↔
      st.now - t < cfg.warning_min_display_seconds := by
    rw [List.mem_filter]
    constructor
    · rintro ⟨-, hv⟩; exact hvalid.mp hv
    · intro hv; exact ⟨hmem, hvalid.mpr hv⟩
  unfold _clean_expired_warnings
  by_cases hlen : (st.warningBuffer.buffer.filter
      (fun m => _is_warning_still_valid cfg parseT extractT st.now m)).length <
      st.warningBuffer.buffer.length
  · rw [if_pos hlen]
    split_ifs <;>
      simpa [apply_ite (fun b : MessageBuffer => b.buffer), List.mem_filter]
        using hmemf
  · rw [if_neg hlen]
    have hall := filter_eq_self_of_length_le
      (fun m => _is_warning_still_valid cfg parseT extractT st.now m)
      st.warningBuffer.buffer (le_of_not_lt hlen)
    have hv : _is_warning_still_valid cfg parseT extractT st.now msg = true :=
      List.filter_eq_self.mp hall msg hmem
    simp only [hmem, true_iff]
    exact hvalid.mp hv

/-- Witness for C2 at a concrete sweep: a warning first displayed 100
seconds ago (min display 300) is kept. -/
def C2msg : MessageItem :=
  { pyid := 1, text := "W", color := "#FF0000", timestamp := 0,
    message_type := "warning", source := "sa", event_id := "E1",
    shock_time := some "2020-01-01 00:00:00", first_displayed_at := some 0 }

def C2buf : MessageBuffer :=
  { initBuffer with
      buffer := [C2msg]
      add_order := [(1, 1)]
      add_order_counter := 1 }

def C2st : ArbiterState :=
  { warningBuffer := C2buf
    reportBuffer := initBuffer
    current_display_type := some "warning"
    current_displaying_message := some C2msg
    pending_update_message := none
    switching_to_report := false
    is_scrolling := false
    now := 100 }

theorem C2_min_display_time_witness :
    (_is_warning_still_valid {} (fun _ => some 0) (fun _ => none) C2st.now C2msg = true ↔
       C2st.now - 0 < MessageConfig.warning_min_display_seconds {}) ∧
    (C2msg ∈ (_clean_expired_warnings {} (fun _ => some 0) (fun _ => none) C2st).1.warningBuffer.buffer ↔
       C2st.now - 0 < MessageConfig.warning_min_display_seconds {}) :=
  C2_min_display_time {} (fun _ => some 0) (fun _ => none) C2st C2msg 0
    (List.mem_singleton_self C2msg) rfl

/-! ## Claim C9: stale warnings are dropped at admission -/

/-- C9: a Warning event whose parsed `shock_time` lies more than
`warning_shock_validity_seconds` before the current display-timezone
time is rejected by `on_message_received` before formatting: nothing is
enqueued, no display call is emitted, and the arbiter state (in
particular both buffers) is untouched. (Cancel-flagged JMA events take
the separate cancellation path and are excluded.) -/
theorem C9_stale_dropped (fmt : ParsedData → Option String)
    (colorFn : String → ParsedData → String)
    (weatherImg : ParsedData → Option String) (cfg : MessageConfig)
    (parseT : String → Option Int) (newPyid : Nat) (st : ArbiterState)
    (source_name : String) (pd : ParsedData) (t : Int)
    (hty : pd.type = "warning")
    (hnc : ¬(source_name = "jma" ∧ pd.cancel = true))
    (hst : pd.shock_time ≠ "")
    (hp : parseT pd.shock_time = some t)
    (hold : cfg.warning_shock_validity_seconds < st.now - t) :
    on_message_received fmt colorFn weatherImg cfg parseT newPyid st source_name pd
      = ⟨st, none, []⟩ := by
  have hv : _is_warning_valid cfg parseT st.now pd.shock_time = false := by
    unfold _is_warning_valid
    rw [if_neg (by simpa using hst), hp]
    simp
    omega
  unfold on_message_received
  by_cases hj : source_name = "jma"
  · have hc : pd.cancel = false := by
      cases hcancel : pd.cancel
      · rfl
      · exact absurd ⟨hj, hcancel⟩ hnc
    simp [hty, hj, hc, hv]
  · simp [hty, hj, hv]

/-- Witness for C9, the spec's Scenario C: a Warning from source `sa`
with a `shock_time` 400 seconds old against a 300-second validity window
produces no state change and no enqueue. -/
def C9pd : ParsedData :=
  { type := "warning", source_type := "sa", cancel := false,
    event_id := "E9", shock_time := "2026-02-05 01:17:51" }

theorem C9_stale_dropped_witness :
    on_message_received (fun _ => some "W") (fun _ _ => "#FF0000") (fun _ => none)
      {} (fun _ => some 0) 7 { C2st with now := 400 } "sa" C9pd
      = ⟨{ C2st with now := 400 }, none, []⟩ :=
  C9_stale_dropped _ _ _ _ _ _ _ _ _ 0 (by decide) (by decide) (by decide)
    (by decide) (by decide)

/-! ## Claim C10: weather image-path carry-over in `batch_replace_by_source` -/

theorem replaceFirstBySrcW_append (m e : MessageItem) (l1 l2 : List MessageItem)
    (hl1 : ∀ x ∈ l1, x.source ≠ m.source) (he : e.source = m.source) :
    replaceFirstBySrcW (l1 ++ e :: l2) m = some (e, l1 ++ weatherCarry e m :: l2) := by
  induction l1 with
  | nil =>
    simp only [List.nil_append, replaceFirstBySrcW]
    rw [if_pos (by simpa using he)]
  | cons a l1 ih =>
    have ha : (a.source == m.source) = false := by
      simpa using hl1 a (List.mem_cons_self a l1)
    have ih' := ih (fun x hx => hl1 x (List.mem_cons_of_mem a hx))
    simp only [List.cons_append, replaceFirstBySrcW, ha, Bool.false_eq_true,
      if_false]
    show ((replaceFirstBySrcW (l1 ++ e :: l2) m).map fun p => (p.1, a :: p.2)) = _
    rw [ih']
    rfl

theorem sortMsgs_perm (d : List (Nat × Nat)) (l : List MessageItem) :
    (sortMsgs d l).Perm l :=
  List.perm_insertionSort _ l

/-- The buffer list produced by `_sort_by_priority` is always the sorted
list, whatever happens to the index. -/
theorem _sort_by_priority_buffer (b : MessageBuffer) :
    (_sort_by_priority b).buffer = sortMsgs b.add_order b.buffer := by
  simp only [_sort_by_priority]
  split
  · rfl
  · split <;> rfl

theorem _sort_by_priority_add_order (b : MessageBuffer) :
    (_sort_by_priority b).add_order = b.add_order := by
  simp only [_sort_by_priority]
  split
  · rfl
  · split <;> rfl

theorem sortIfPriority_buffer_perm (b : MessageBuffer) :
    (sortIfPriority b).buffer.Perm b.buffer := by
  unfold sortIfPriority
  split
  · rw [_sort_by_priority_buffer]; exact sortMsgs_perm _ _
  · exact List.Perm.refl _

theorem weatherCarry_image_path (e m : MessageItem) :
    (weatherCarry e m).image_path =
      (if m.message_type = "weather" ∧ truthyOpt m.image_path = false ∧
          truthyOpt e.image_path = true then e.image_path else m.image_path) := by
  by_cases hP : m.message_type = "weather" ∧ truthyOpt m.image_path = false ∧
      truthyOpt e.image_path = true
  · obtain ⟨h1, h2, h3⟩ := hP
    rw [if_pos ⟨h1, h2, h3⟩]
    unfold weatherCarry
    rw [if_pos (by simp [h1, h2, h3])]
  · rw [if_neg hP]
    unfold weatherCarry
    rw [if_neg ?_]
    · intro hbool
      apply hP
      simp only [Bool.and_eq_true, beq_iff_eq, Bool.not_eq_true'] at hbool
      exact ⟨hbool.1.1, hbool.1.2, hbool.2⟩

theorem weatherCarry_fields (e m : MessageItem) :
    (weatherCarry e m).text = m.text ∧
    (weatherCarry e m).color = m.color ∧
    (weatherCarry e m).timestamp = m.timestamp ∧
    (weatherCarry e m).message_type = m.message_type ∧
    (weatherCarry e m).source = m.source ∧
    (weatherCarry e m).event_id = m.event_id ∧
    (weatherCarry e m).shock_time = m.shock_time ∧
    (weatherCarry e m).first_displayed_at = m.first_displayed_at ∧
    (weatherCarry e m).pyid = m.pyid := by
  unfold weatherCarry
  split <;> simp

/-- C10: when a `weather` message replaces the (unique first) entry of
its source in `batch_replace_by_source` and carries no image path while
the replaced entry does, the resulting entry keeps the old image path;
in every other case (other message types, or an incoming image path, or
no existing one) the image path — like every other field — comes from
the incoming message. The final buffer is the replaced list up to the
batch-final re-sort. -/
theorem C10_weather_image_carry (b : MessageBuffer) (m e : MessageItem)
    (l1 l2 : List MessageItem)
    (hbuf : b.buffer = l1 ++ e :: l2)
    (hl1 : ∀ x ∈ l1, x.source ≠ m.source)
    (he : e.source = m.source) :
    ((batch_replace_by_source b [m]).1.buffer).Perm
        (l1 ++ weatherCarry e m :: l2) ∧
    (weatherCarry e m).image_path =
      (if m.message_type = "weather" ∧ truthyOpt m.image_path = false ∧
          truthyOpt e.image_path = true
       then e.image_path else m.image_path) ∧
    (weatherCarry e m).text = m.text ∧
    (weatherCarry e m).color = m.color ∧
    (weatherCarry e m).timestamp = m.timestamp ∧
    (weatherCarry e m).message_type = m.message_type ∧
    (weatherCarry e m).source = m.source ∧
    (weatherCarry e m).event_id = m.event_id ∧
    (weatherCarry e m).shock_time = m.shock_time ∧
    (weatherCarry e m).first_displayed_at = m.first_displayed_at ∧
    (weatherCarry e m).pyid = m.pyid := by
  obtain ⟨f1, f2, f3, f4, f5, f6, f7, f8, f9⟩ := weatherCarry_fields e m
  refine ⟨?_, weatherCarry_image_path e m, f1, f2, f3, f4, f5, f6, f7, f8, f9⟩
  have hstep : batchStepBySource b m =
      (carryOrder { b with buffer := l1 ++ weatherCarry e m :: l2 } e.pyid m.pyid,
       true) := by
    unfold batchStepBySource
    rw [hbuf, replaceFirstBySrcW_append m e l1 l2 hl1 he]
  have hbatch : (batch_replace_by_source b [m]).1 =
      sortIfPriority (carryOrder { b with buffer := l1 ++ weatherCarry e m :: l2 }
        e.pyid m.pyid) := by
    unfold batch_replace_by_source dedupBySource
    simp only [updateLatestBySrc, List.foldl_cons, List.foldl_nil, List.nil_append,
      hstep]
  have hco : (carryOrder { b with buffer := l1 ++ weatherCarry e m :: l2 }
      e.pyid m.pyid).buffer = l1 ++ weatherCarry e m :: l2 := by
    unfold carryOrder
    split <;> rfl
  rw [hbatch]
  have hperm := sortIfPriority_buffer_perm
    (carryOrder { b with buffer := l1 ++ weatherCarry e m :: l2 } e.pyid m.pyid)
  rw [hco] at hperm
  exact hperm

/-- Witness for C10: a weather update without an image path replacing a
same-source entry that has one keeps the old path. -/
def C10old : MessageItem :=
  { pyid := 1, text := "old", color := "#FFF500", timestamp := 0,
    message_type := "weather", source := "weatheralarm",
    image_path := some "/tmp/alert.png" }

def C10new : MessageItem :=
  { pyid := 2, text := "new", color := "#FFF500", timestamp := 10,
    message_type := "weather", source := "weatheralarm", image_path := none }

def C10buf : MessageBuffer :=
  { initBuffer with
      buffer := [C10old]
      add_order := [(1, 1)]
      add_order_counter := 1 }

theorem C10_weather_image_carry_witness :
    ((batch_replace_by_source C10buf [C10new]).1.buffer).Perm
        ([] ++ weatherCarry C10old C10new :: []) ∧
    (weatherCarry C10old C10new).image_path =
      (if C10new.message_type = "weather" ∧ truthyOpt C10new.image_path = false ∧
          truthyOpt C10old.image_path = true
       then C10old.image_path else C10new.image_path) ∧
    (weatherCarry C10old C10new).text = C10new.text ∧
    (weatherCarry C10old C10new).color = C10new.color ∧
    (weatherCarry C10old C10new).timestamp = C10new.timestamp ∧
    (weatherCarry C10old C10new).message_type = C10new.message_type ∧
    (weatherCarry C10old C10new).source = C10new.source ∧
    (weatherCarry C10old C10new).event_id = C10new.event_id ∧
    (weatherCarry C10old C10new).shock_time = C10new.shock_time ∧
    (weatherCarry C10old C10new).first_displayed_at = C10new.first_displayed_at ∧
    (weatherCarry C10old C10new).pyid = C10new.pyid :=
  C10_weather_image_carry C10buf C10new C10old [] []
    rfl (by intro x hx; cases hx) rfl

/-! ## Claim C5: the `is_same_event` identity rule -/

/-- The identity rule exactly as claim C5 words it: same source, and
either matching non-empty `event_id`s, or (both `event_id`s empty and)
matching normalized texts with timestamps less than 30 seconds apart.
This is a restatement of the claim, to be compared with the embedded
`is_same_event`. -/
def sameEventSpec (a b : MessageItem) : Prop :=
  a.source = b.source ∧
  ((a.event_id ≠ "" ∧ b.event_id ≠ "" ∧ a.event_id = b.event_id) ∨
   (a.event_id = "" ∧ b.event_id = "" ∧
    _normalize_warning_text a.text = _normalize_warning_text b.text ∧
    (a.timestamp - b.timestamp).natAbs < 30))

instance (a b : MessageItem) : Decidable (sameEventSpec a b) := by
  unfold sameEventSpec; infer_instance

def C5a : MessageItem :=
  { pyid := 1, text := "甲地发生5.0级地震", color := "#FF0000", timestamp := 0,
    message_type := "warning", source := "sa", event_id := "",
    shock_time := some "2026-02-05 01:17:51" }

def C5b : MessageItem :=
  { C5a with pyid := 2, text := "乙地发生6.0级地震", timestamp := 1000 }

/-- C5 counterexample: two `sa` messages without `event_id`, with
different (normalized) texts and timestamps 1000 seconds apart, but
equal `shock_time` strings. `is_same_event` returns `True` (the
shock-time clause), while the claim's rule — which admits no other field
combination — says they are distinct events. -/
theorem C5_counterexample :
    is_same_event C5a C5b = true ∧ ¬ sameEventSpec C5a C5b := by
  decide

/-- C5 (amended): `is_same_event a b` is `True` iff the sources agree
and either (1) both `event_id`s are non-empty and equal, or (2) both are
empty and one of: the normalized texts are equal and non-empty
(no timestamp condition); both `shock_time`s are set and equal; or both
normalized texts are non-empty, their 80-character prefixes agree, and
the timestamps are less than 30 seconds apart. -/
def sameEventAmended (a b : MessageItem) : Prop :=
  a.source = b.source ∧
  ((a.event_id ≠ "" ∧ b.event_id ≠ "" ∧ a.event_id = b.event_id) ∨
   (a.event_id = "" ∧ b.event_id = "" ∧
     ((_normalize_warning_text a.text ≠ "" ∧
       _normalize_warning_text a.text = _normalize_warning_text b.text) ∨
      (truthyOpt a.shock_time = true ∧ truthyOpt b.shock_time = true ∧
       a.shock_time = b.shock_time) ∨
      (_normalize_warning_text a.text ≠ "" ∧ _normalize_warning_text b.text ≠ "" ∧
       (a.timestamp - b.timestamp).natAbs < 30 ∧
       (_normalize_warning_text a.text).data.take 80 =
         (_normalize_warning_text b.text).data.take 80))))

/-- C5 (amended), proved: the embedded `is_same_event` agrees with
`sameEventAmended` on every pair of messages. -/
theorem C5_amended_iff (a b : MessageItem) :
    is_same_event a b = true ↔ sameEventAmended a b := by
  unfold is_same_event sameEventAmended
  split_ifs <;> first
    | (simp_all [truthyOpt]; tauto)
    | simp_all [truthyOpt]

/-- Witness for the amended C5 at a concrete pair (an update replacing
report 1 by report 2 of the same event: equal after normalization). -/
def C5c : MessageItem :=
  { C5a with pyid := 3, text := "第1报，甲地发生5.0级地震" }

def C5d : MessageItem :=
  { C5a with pyid := 4, text := "第2报，甲地发生5.0级地震", timestamp := 40 }

theorem C5_amended_iff_witness :
    (is_same_event C5c C5d = true ↔ sameEventAmended C5c C5d) ∧
    is_same_event C5c C5d = true :=
  ⟨C5_amended_iff C5c C5d, by decide⟩

/-! ## Claim C1: forced interruption on warnings in Report/Idle mode -/

theorem foldl_minByPriority_spec (rest : List MessageItem) :
    ∀ b : MessageItem,
      (rest.foldl (fun best x =>
          if get_source_priority x.source < get_source_priority best.source then x
          else best) b) ∈ b :: rest ∧
      ∀ x ∈ b :: rest,
        get_source_priority ((rest.foldl (fun best x =>
            if get_source_priority x.source < get_source_priority best.source then x
            else best) b)).source ≤ get_source_priority x.source := by
  induction rest with
  | nil =>
    intro b
    refine ⟨List.mem_singleton_self b, ?_⟩
    intro x hx
    rw [List.mem_singleton] at hx
    subst hx
    exact le_refl _
  | cons a rest ih =>
    intro b
    simp only [List.foldl_cons]
    by_cases hab : get_source_priority a.source < get_source_priority b.source
    · rw [if_pos hab]
      obtain ⟨ihm, ihmin⟩ := ih a
      constructor
      · rcases List.mem_cons.mp ihm with h | h
        · rw [h]; exact List.mem_cons_of_mem b (List.mem_cons_self a rest)
        · exact List.mem_cons_of_mem b (List.mem_cons_of_mem a h)
      · intro x hx
        rcases List.mem_cons.mp hx with h | h
        · subst h
          exact le_trans (ihmin a (List.mem_cons_self a rest)) (le_of_lt hab)
        · rcases List.mem_cons.mp h with h' | h'
          · subst h'
            exact ihmin x (List.mem_cons_self x rest)
          · exact ihmin x (List.mem_cons_of_mem a h')
    · rw [if_neg hab]
      obtain ⟨ihm, ihmin⟩ := ih b
      constructor
      · rcases List.mem_cons.mp ihm with h | h
        · rw [h]; exact List.mem_cons_self b _
        · exact List.mem_cons_of_mem b (List.mem_cons_of_mem a h)
      · intro x hx
        rcases List.mem_cons.mp hx with h | h
        · subst h
          exact ihmin x (List.mem_cons_self x rest)
        · rcases List.mem_cons.mp h with h' | h'
          · subst h'
            exact le_trans (ihmin b (List.mem_cons_self b rest)) (le_of_not_lt hab)
          · exact ihmin x (List.mem_cons_of_mem b h')

theorem minByPriority_spec (m : MessageItem) (rest : List MessageItem) :
    ∃ fw, minByPriority (m :: rest) = some fw ∧ fw ∈ m :: rest ∧
      ∀ x ∈ m :: rest,
        get_source_priority fw.source ≤ get_source_priority x.source := by
  obtain ⟨hm, hmin⟩ := foldl_minByPriority_spec rest m
  exact ⟨_, rfl, hm, hmin⟩

theorem writeFdaById_map_pyid (l : List MessageItem) (pid : Nat) (fda : Option Int) :
    (writeFdaById l pid fda).map (fun m => m.pyid) = l.map (fun m => m.pyid) := by
  unfold writeFdaById
  rw [List.map_map]
  apply List.map_congr_left
  intro m _
  by_cases h : m.pyid = pid
  · simp [h]
  · simp [h]

/-- Forcing a warning onto the display (`force_interrupt = True`) always
emits exactly one `update_text(force=True)` call carrying the warning's
content, leaves the warning buffer's entries (by identity) unchanged,
and lands in Warning mode. -/
theorem switch_warning_forced (st : ArbiterState) (msg : MessageItem) :
    (_switch_to_warning_mode st msg true).2 =
      [⟨msg.text, msg.color, msg.image_path, true⟩] ∧
    (_switch_to_warning_mode st msg true).1.warningBuffer.buffer.map (fun m => m.pyid) =
      st.warningBuffer.buffer.map (fun m => m.pyid) ∧
    (_switch_to_warning_mode st msg true).1.current_display_type = some "warning" := by
  unfold _switch_to_warning_mode
  simp only [updateTextOk, Bool.true_or, if_true]
  split <;> simp [writeFdaById_map_pyid]

/-- C1: while the display mode is Report or unset, a non-empty batch of
admitted warning messages is first inserted into the Warning Buffer via
`batch_replace_by_source`, and the single `update_text` call then
emitted is forced and carries the text/color/image of the
highest-priority warning of the batch (`sorted(…)[0]`), after which the
mode is Warning. -/
theorem C1_forced_interruption (st : ArbiterState) (ws : List MessageItem)
    (hmode : st.current_display_type = some "report" ∨
             st.current_display_type = none)
    (hne : ws ≠ []) :
    ∃ fw, minByPriority ws = some fw ∧ fw ∈ ws ∧
      (∀ x ∈ ws, get_source_priority fw.source ≤ get_source_priority x.source) ∧
      (processWarningMessages st ws).2 =
        [⟨fw.text, fw.color, fw.image_path, true⟩] ∧
      (processWarningMessages st ws).1.warningBuffer.buffer.map (fun m => m.pyid) =
        (batch_replace_by_source st.warningBuffer ws).1.buffer.map (fun m => m.pyid) ∧
      (processWarningMessages st ws).1.current_display_type = some "warning" := by
  obtain ⟨m, rest, rfl⟩ := List.exists_cons_of_ne_nil hne
  obtain ⟨fw, hfw, hmem, hmin⟩ := minByPriority_spec m rest
  have hcond : (st.current_display_type == some "report" ||
      st.current_display_type == none) = true := by
    rcases hmode with h | h <;> simp [h]
  have hred : processWarningMessages st (m :: rest) =
      _switch_to_warning_mode
        { st with warningBuffer :=
            (batch_replace_by_source st.warningBuffer (m :: rest)).1 } fw true := by
    unfold processWarningMessages
    rw [if_neg (by simp), if_pos hcond, hfw]
  obtain ⟨hc1, hc2, hc3⟩ := switch_warning_forced
    { st with warningBuffer :=
        (batch_replace_by_source st.warningBuffer (m :: rest)).1 } fw
  exact ⟨fw, hfw, hmem, hmin, by rw [hred]; exact hc1,
    by rw [hred]; exact hc2, by rw [hred]; exact hc3⟩

/-- Witness for C1: a single `jma` warning arriving in Report mode. -/
def C1w : MessageItem :=
  { pyid := 5, text := "【日本气象厅预警】第1报，东京 M6.0", color := "#FF0000",
    timestamp := 10, message_type := "warning", source := "jma",
    event_id := "E1", shock_time := some "2026-02-05 01:17:51" }

def C1st : ArbiterState :=
  { warningBuffer := initBuffer
    reportBuffer := C2buf
    current_display_type := some "report"
    current_displaying_message := none
    pending_update_message := none
    switching_to_report := false
    is_scrolling := true
    now := 10 }

theorem C1_forced_interruption_witness :
    ∃ fw, minByPriority [C1w] = some fw ∧ fw ∈ [C1w] ∧
      (∀ x ∈ [C1w], get_source_priority fw.source ≤ get_source_priority x.source) ∧
      (processWarningMessages C1st [C1w]).2 =
        [⟨fw.text, fw.color, fw.image_path, true⟩] ∧
      (processWarningMessages C1st [C1w]).1.warningBuffer.buffer.map (fun m => m.pyid) =
        (batch_replace_by_source C1st.warningBuffer [C1w]).1.buffer.map (fun m => m.pyid) ∧
      (processWarningMessages C1st [C1w]).1.current_display_type = some "warning" :=
  C1_forced_interruption C1st [C1w] (Or.inl rfl) (by decide)

/-! ## Claim C4: capacity eviction policy -/

theorem replaceFirstBySrcW_none (buf : List MessageItem) (m : MessageItem)
    (h : ∀ x ∈ buf, x.source ≠ m.source) :
    replaceFirstBySrcW buf m = none := by
  induction buf with
  | nil => rfl
  | cons a buf ih =>
    have ha : (a.source == m.source) = false := by
      simpa using h a (List.mem_cons_self a buf)
    simp only [replaceFirstBySrcW, ha, Bool.false_eq_true, if_false]
    rw [ih (fun x hx => h x (List.mem_cons_of_mem a hx))]
    rfl

theorem msgLe_refl (d : List (Nat × Nat)) (x : MessageItem) : msgLe d x x := by
  unfold msgLe keyLe sortKey
  rcases h : lookupOrder d x.pyid with _ | a <;> simp [ordLe, h]

def C4jma : MessageItem :=
  { pyid := 11, text := "J", color := "#FF0000", timestamp := 1,
    message_type := "warning", source := "jma", event_id := "E1" }

def C4fan : MessageItem :=
  { pyid := 12, text := "F", color := "#00FFFF", timestamp := 0,
    message_type := "report", source := "fanstudio" }

def C4cenc : MessageItem :=
  { pyid := 13, text := "C", color := "#00FFFF", timestamp := 2,
    message_type := "report", source := "cenc" }

def C4buf : MessageBuffer :=
  addMsg (addMsg { initBuffer with max_size := 2 } C4fan) C4jma

/-- C4 counterexample: a full (capacity 2) priority buffer built by the
buffer's own `add`: `fanstudio` (priority 99) arrived first (order
token 1), `jma` (priority 0) second (order token 2), so the sorted
buffer is `[jma, fanstudio]` and the oldest arrival is `fanstudio`.
Inserting `cenc` (no same-source replacement) evicts index 0 of the
**priority-sorted** list — the highest-priority `jma` entry, whose order
token 2 is not the smallest — while the oldest arrival `fanstudio`
survives; the claim predicts the opposite. -/
theorem C4_counterexample :
    C4buf.buffer.map (fun m => m.source) = ["jma", "fanstudio"] ∧
    lookupOrder C4buf.add_order 12 = some 1 ∧
    lookupOrder C4buf.add_order 11 = some 2 ∧
    C4buf.max_size ≤ C4buf.buffer.length ∧
    (batch_replace_by_source C4buf [C4cenc]).1.buffer.map (fun m => m.source) =
      ["cenc", "fanstudio"] := by
  decide

/-- C4 (amended): when an insertion with no same-source replacement hits
a full buffer, the entry evicted is the entry at index 0 of the current
(priority-sorted) list — the entry with the minimal
`(source_priority, insertion_order)` key — not the oldest arrival; the
oldest arrival is evicted only when it happens to sit at index 0. The
result is the remaining entries plus the new message, re-sorted. -/
theorem C4_amended_eviction (b : MessageBuffer) (m e0 : MessageItem)
    (rest : List MessageItem)
    (hbuf : b.buffer = e0 :: rest)
    (hnosrc : ∀ x ∈ b.buffer, x.source ≠ m.source)
    (hfull : b.max_size ≤ b.buffer.length) :
    ((batch_replace_by_source b [m]).1.buffer).Perm (rest ++ [m]) ∧
    (e0 ∉ rest → e0 ≠ m → e0 ∉ (batch_replace_by_source b [m]).1.buffer) ∧
    (List.Pairwise (msgLe b.add_order) b.buffer →
      ∀ x ∈ b.buffer, msgLe b.add_order e0 x) := by
  have hnone : replaceFirstBySrcW b.buffer m = none :=
    replaceFirstBySrcW_none b.buffer m hnosrc
  have hevict : evictIfFull b =
      { b with buffer := rest,
               add_order := delOrder b.add_order e0.pyid,
               current_index := if 0 < b.current_index then b.current_index - 1
                                else b.current_index } := by
    unfold evictIfFull
    rw [if_pos hfull, hbuf]
  have hstep : batchStepBySource b m = (recordAndAppend (evictIfFull b) m, false) := by
    unfold batchStepBySource
    rw [hnone]
  have hbatch : (batch_replace_by_source b [m]).1 =
      sortIfPriority (recordAndAppend (evictIfFull b) m) := by
    unfold batch_replace_by_source dedupBySource
    simp only [updateLatestBySrc, List.foldl_cons, List.foldl_nil, List.nil_append,
      hstep]
  have hrbuf : (recordAndAppend (evictIfFull b) m).buffer = rest ++ [m] := by
    rw [hevict]
    rfl
  have hperm : ((batch_replace_by_source b [m]).1.buffer).Perm (rest ++ [m]) := by
    rw [hbatch]
    have h := sortIfPriority_buffer_perm (recordAndAppend (evictIfFull b) m)
    rw [hrbuf] at h
    exact h
  refine ⟨hperm, ?_, ?_⟩
  · intro hnr hne hmem
    rcases List.mem_append.mp (hperm.mem_iff.mp hmem) with h | h
    · exact hnr h
    · exact hne (List.mem_singleton.mp h)
  · intro hp x hx
    rw [hbuf] at hp hx
    rcases List.mem_cons.mp hx with h | h
    · subst h
      exact msgLe_refl _ _
    · exact (List.pairwise_cons.mp hp).1 x h

/-- Witness for the amended C4 at the concrete full buffer of the
counterexample. -/
theorem C4_amended_eviction_witness :
    ((batch_replace_by_source C4buf [C4cenc]).1.buffer).Perm ([C4fan] ++ [C4cenc]) ∧
    (C4jma ∉ [C4fan] → C4jma ≠ C4cenc →
      C4jma ∉ (batch_replace_by_source C4buf [C4cenc]).1.buffer) ∧
    (List.Pairwise (msgLe C4buf.add_order) C4buf.buffer →
      ∀ x ∈ C4buf.buffer, msgLe C4buf.add_order C4jma x) :=
  C4_amended_eviction C4buf C4cenc C4jma [C4fan] (by decide) (by decide) (by decide)

/-! ## Claim C6: at most one message per source -/

/-- Buffer states reachable through the operations `MainWindow` actually
performs on its two priority buffers: the initial empty buffer; one
`add` on a still-empty buffer (the custom-text injection at startup);
`batch_replace_by_source` for every ingestion insert; the direct
`buffer = [x for x in buffer if …]` removals (expiry sweep, JMA cancel,
scroll-complete removal) together with their index resets; in-place
mutation of message fields that never touches `source` (image-path
attachment, custom-text hot update, `first_displayed_at` writes);
repositioning of `current_index` / `_current_displaying_msg_id`
(`_switch_to_warning_mode`, pending-update handling, demotion); and
`get_next`. -/
inductive Reached : MessageBuffer → Prop
  | init : Reached initBuffer
  | addEmpty (b : MessageBuffer) (m : MessageItem) :
      Reached b → b.buffer = [] → Reached (addMsg b m)
  | batch (b : MessageBuffer) (ms : List MessageItem) :
      Reached b → Reached (batch_replace_by_source b ms).1
  | filterOp (b : MessageBuffer) (p : MessageItem → Bool) (ci : Nat) :
      Reached b → Reached { b with buffer := b.buffer.filter p, current_index := ci }
  | mapKeepSource (b : MessageBuffer) (f : MessageItem → MessageItem) :
      Reached b → (∀ m, (f m).source = m.source) →
      Reached { b with buffer := b.buffer.map f }
  | setPointers (b : MessageBuffer) (ci : Nat) (o : Option Nat) :
      Reached b →
      Reached { b with current_index := ci, current_displaying_msg_id := o }
  | nextOp (b : MessageBuffer) : Reached b → Reached (get_next b).2

theorem updateLatestBySrc_some_sources (m : MessageItem) :
    ∀ (acc acc' : List MessageItem), updateLatestBySrc acc m = some acc' →
      acc'.map (fun x => x.source) = acc.map (fun x => x.source) := by
  intro acc
  induction acc with
  | nil => intro acc' h; cases h
  | cons a acc ih =>
    intro acc' h
    simp only [updateLatestBySrc] at h
    by_cases ha : a.source = m.source
    · rw [if_pos (by simpa using ha)] at h
      cases h
      simp only [List.map_cons]
      congr 1
      split
      · exact ha.symm
      · rfl
    · rw [if_neg (by simpa using ha)] at h
      cases hrec : updateLatestBySrc acc m with
      | none => rw [hrec] at h; cases h
      | some l =>
        rw [hrec] at h
        simp only [Option.map_some'] at h
        cases h
        simp only [List.map_cons, ih l hrec]

theorem updateLatestBySrc_none (m : MessageItem) :
    ∀ acc : List MessageItem, updateLatestBySrc acc m = none →
      ∀ x ∈ acc, x.source ≠ m.source := by
  intro acc
  induction acc with
  | nil => intro _ x hx; cases hx
  | cons a acc ih =>
    intro h x hx
    simp only [updateLatestBySrc] at h
    by_cases ha : a.source = m.source
    · rw [if_pos (by simpa using ha)] at h
      cases h
    · rw [if_neg (by simpa using ha)] at h
      cases hrec : updateLatestBySrc acc m with
      | none =>
        rcases List.mem_cons.mp hx with h' | h'
        · subst h'; exact ha
        · exact ih hrec x h'
      | some l => rw [hrec] at h; simp only [Option.map_some'] at h; cases h

theorem dedupBySource_sources_nodup (ms : List MessageItem) :
    ((dedupBySource ms).map (fun x => x.source)).Nodup := by
  unfold dedupBySource
  suffices h : ∀ acc : List MessageItem, (acc.map (fun x => x.source)).Nodup →
      ((ms.foldl (fun acc m =>
          match updateLatestBySrc acc m with
          | some acc' => acc'
          | none => acc ++ [m]) acc).map (fun x => x.source)).Nodup by
    exact h [] (by simp)
  induction ms with
  | nil => intro acc hacc; simpa using hacc
  | cons m ms ih =>
    intro acc hacc
    simp only [List.foldl_cons]
    apply ih
    cases hrec : updateLatestBySrc acc m with
    | some acc' => rw [updateLatestBySrc_some_sources m acc acc' hrec]; exact hacc
    | none =>
      rw [List.map_append]
      rw [List.nodup_append]
      refine ⟨hacc, List.nodup_singleton _, ?_⟩
      intro s hs hs'
      simp only [List.map_cons, List.map_nil, List.mem_singleton] at hs'
      subst hs'
      obtain ⟨x, hx, hxs⟩ := List.mem_map.mp hs
      exact updateLatestBySrc_none m acc hrec x hx hxs

theorem replaceFirstBySrcW_some_sources (m : MessageItem) :
    ∀ (buf nb : List MessageItem) (old : MessageItem),
      replaceFirstBySrcW buf m = some (old, nb) →
      nb.map (fun x => x.source) = buf.map (fun x => x.source) := by
  intro buf
  induction buf with
  | nil => intro nb old h; cases h
  | cons a buf ih =>
    intro nb old h
    simp only [replaceFirstBySrcW] at h
    by_cases ha : a.source = m.source
    · rw [if_pos (by simpa using ha)] at h
      cases h
      simp only [List.map_cons]
      congr 1
      rw [(weatherCarry_fields a m).2.2.2.2.1, ha]
    · rw [if_neg (by simpa using ha)] at h
      cases hrec : replaceFirstBySrcW buf m with
      | none => rw [hrec] at h; cases h
      | some p =>
        rw [hrec] at h
        simp only [Option.map_some'] at h
        cases h
        simp only [List.map_cons, ih p.2 p.1 (by rw [hrec])]

theorem replaceFirstBySrcW_none_sources (m : MessageItem) :
    ∀ buf : List MessageItem, replaceFirstBySrcW buf m = none →
      ∀ x ∈ buf, x.source ≠ m.source := by
  intro buf
  induction buf with
  | nil => intro _ x hx; cases hx
  | cons a buf ih =>
    intro h x hx
    simp only [replaceFirstBySrcW] at h
    by_cases ha : a.source = m.source
    · rw [if_pos (by simpa using ha)] at h
      cases h
    · rw [if_neg (by simpa using ha)] at h
      cases hrec : replaceFirstBySrcW buf m with
      | none =>
        rcases List.mem_cons.mp hx with h' | h'
        · subst h'; exact ha
        · exact ih hrec x h'
      | some p => rw [hrec] at h; simp only [Option.map_some'] at h; cases h

theorem carryOrder_buffer (b : MessageBuffer) (o n : Nat) :
    (carryOrder b o n).buffer = b.buffer := by
  unfold carryOrder
  split <;> rfl

theorem evictIfFull_buffer_sublist (b : MessageBuffer) :
    (evictIfFull b).buffer.Sublist b.buffer := by
  unfold evictIfFull
  split
  · cases hb : b.buffer with
    | nil => simp [hb]
    | cons r rest => exact List.sublist_cons_self r rest
  · exact List.Sublist.refl _

theorem batchStep_sources_nodup (b : MessageBuffer) (m : MessageItem)
    (h : (b.buffer.map (fun x => x.source)).Nodup) :
    ((batchStepBySource b m).1.buffer.map (fun x => x.source)).Nodup := by
  unfold batchStepBySource
  cases hrep : replaceFirstBySrcW b.buffer m with
  | some p =>
    show ((carryOrder { b with buffer := p.2 } p.1.pyid m.pyid).buffer.map
      (fun x => x.source)).Nodup
    rw [carryOrder_buffer]
    show ((p.2).map (fun x => x.source)).Nodup
    rw [replaceFirstBySrcW_some_sources m b.buffer p.2 p.1 (by rw [hrep])]
    exact h
  | none =>
    have hno := replaceFirstBySrcW_none_sources m b.buffer hrep
    have hsub := evictIfFull_buffer_sublist b
    have hnodup : ((evictIfFull b).buffer.map (fun x => x.source)).Nodup :=
      (hsub.map _).nodup h
    show (((evictIfFull b).buffer ++ [m]).map (fun x => x.source)).Nodup
    rw [List.map_append, List.nodup_append]
    refine ⟨hnodup, List.nodup_singleton _, ?_⟩
    intro s hs hs'
    simp only [List.map_cons, List.map_nil, List.mem_singleton] at hs'
    subst hs'
    obtain ⟨x, hx, hxs⟩ := List.mem_map.mp hs
    exact hno x (hsub.mem hx) hxs

theorem batch_sources_nodup (b : MessageBuffer) (ms : List MessageItem)
    (h : (b.buffer.map (fun x => x.source)).Nodup) :
    ((batch_replace_by_source b ms).1.buffer.map (fun x => x.source)).Nodup := by
  unfold batch_replace_by_source
  simp only []
  have hfold : ∀ (uniq : List MessageItem) (b0 : MessageBuffer)
      (acc : List Bool), (b0.buffer.map (fun x => x.source)).Nodup →
      (((uniq.foldl (fun (p : MessageBuffer × List Bool) m =>
          ((batchStepBySource p.1 m).1, p.2 ++ [(batchStepBySource p.1 m).2]))
          (b0, acc)).1.buffer.map (fun x => x.source)).Nodup) := by
    intro uniq
    induction uniq with
    | nil => intro b0 acc h0; simpa using h0
    | cons m uniq ih =>
      intro b0 acc h0
      simp only [List.foldl_cons]
      exact ih _ _ (batchStep_sources_nodup b0 m h0)
  have hperm := sortIfPriority_buffer_perm
    ((dedupBySource ms).foldl (fun (p : MessageBuffer × List Bool) m =>
      ((batchStepBySource p.1 m).1, p.2 ++ [(batchStepBySource p.1 m).2])) (b, [])).1
  exact ((hperm.map _).nodup_iff).mpr (hfold (dedupBySource ms) b [] h)

theorem get_next_buffer_perm (b : MessageBuffer) :
    (get_next b).2.buffer.Perm b.buffer := by
  have hb1 : (_sort_by_priority b).buffer.Perm b.buffer := by
    rw [_sort_by_priority_buffer]; exact sortMsgs_perm _ _
  unfold get_next
  split
  · exact List.Perm.refl _
  · split
    · split
      · exact List.Perm.refl _
      · exact List.Perm.refl _
    · unfold _get_next_by_priority
      split
      · exact List.Perm.refl _
      · split
        · exact hb1
        · exact hb1

theorem addMsg_empty_buffer (b : MessageBuffer) (m : MessageItem)
    (hb : b.buffer = []) : (addMsg b m).buffer.Perm [m] := by
  have h1 : (evictIfFull b).buffer = [] := by
    unfold evictIfFull
    split
    · rw [hb]; exact hb
    · exact hb
  have h2 : (recordAndAppend (evictIfFull b) m).buffer = [m] := by
    unfold recordAndAppend
    simp [h1]
  unfold addMsg
  have := sortIfPriority_buffer_perm (recordAndAppend (evictIfFull b) m)
  rw [h2] at this
  exact this

/-- C6 (invariant part): in every buffer state the arbiter can reach,
the sources of the buffer entries are pairwise distinct — at most one
live message per source. -/
theorem sources_nodup_of_reached (b : MessageBuffer) (h : Reached b) :
    (b.buffer.map (fun x => x.source)).Nodup := by
  induction h with
  | init => simp [initBuffer]
  | addEmpty b m _ hb _ =>
    have := (addMsg_empty_buffer b m hb).map (fun x => x.source)
    exact (this.nodup_iff).mpr (by simp)
  | batch b ms _ ih => exact batch_sources_nodup b ms ih
  | filterOp b p ci _ ih =>
    exact ((List.filter_sublist b.buffer).map _).nodup ih
  | mapKeepSource b f _ hf ih =>
    have : (b.buffer.map f).map (fun x => x.source) =
        b.buffer.map (fun x => x.source) := by
      rw [List.map_map]
      apply List.map_congr_left
      intro a _
      exact hf a
    simpa [this] using ih
  | setPointers b ci o _ ih => exact ih
  | nextOp b _ ih =>
    exact (((get_next_buffer_perm b).map _).nodup_iff).mpr ih

theorem find_set_map (k v : Nat) :
    ∀ d : List (Nat × Nat),
      ((d.map (fun p => if p.1 == k then (k, v) else p)).find?
          (fun p => p.1 == k)) =
        (d.find? (fun p => p.1 == k)).map (fun _ => (k, v)) := by
  intro d
  induction d with
  | nil => rfl
  | cons a d ih =>
    by_cases ha : a.1 = k
    · have hbeq : (a.1 == k) = true := by simpa using ha
      simp [List.find?_cons, hbeq, ha]
    · have hbeq : (a.1 == k) = false := by simpa using ha
      simp only [List.map_cons, hbeq, Bool.false_eq_true, if_false,
        List.find?_cons]
      exact ih

theorem find?_append_none {α : Type} (p : α → Bool) (l2 : List α) :
    ∀ l1 : List α, l1.find? p = none → (l1 ++ l2).find? p = l2.find? p := by
  intro l1
  induction l1 with
  | nil => intro _; rfl
  | cons a l1 ih =>
    intro h
    rw [List.find?_cons] at h
    cases hpa : p a
    · rw [List.cons_append, List.find?_cons, hpa]
      rw [hpa] at h
      exact ih h
    · rw [hpa] at h; cases h

theorem lookupOrder_setOrder (d : List (Nat × Nat)) (k v : Nat) :
    lookupOrder (setOrder d k v) k = some v := by
  unfold setOrder lookupOrder
  by_cases hany : d.any (fun p => p.1 == k)
  · rw [if_pos hany, find_set_map]
    obtain ⟨x, hx, hpx⟩ := List.any_eq_true.mp hany
    cases hfind : d.find? (fun p => p.1 == k) with
    | none =>
      exfalso
      have := List.find?_eq_none.mp hfind x hx
      exact this hpx
    | some y => rfl
  · rw [if_neg hany]
    have hnone : d.find? (fun p => p.1 == k) = none := by
      rw [List.find?_eq_none]
      intro x hx hpx
      exact hany (List.any_eq_true.mpr ⟨x, hx, hpx⟩)
    rw [find?_append_none _ _ d hnone]
    simp

theorem sortIfPriority_add_order (b : MessageBuffer) :
    (sortIfPriority b).add_order = b.add_order := by
  unfold sortIfPriority
  split
  · exact _sort_by_priority_add_order b
  · rfl

/-- With a unique entry per source, a singleton `batch_replace_by_source`
whose source is already present replaces that entry in place: the buffer
size is unchanged, the new object inherits the replaced entry's
insertion-order token, and an entry with the incoming message's identity
and source is in the buffer. -/
theorem batch_singleton_replaces (b : MessageBuffer) (m e : MessageItem) (o : Nat)
    (hnd : (b.buffer.map (fun x => x.source)).Nodup)
    (he : e ∈ b.buffer) (hes : e.source = m.source)
    (ho : lookupOrder b.add_order e.pyid = some o) :
    (batch_replace_by_source b [m]).1.buffer.length = b.buffer.length ∧
    lookupOrder (batch_replace_by_source b [m]).1.add_order m.pyid = some o ∧
    ∃ e', e' ∈ (batch_replace_by_source b [m]).1.buffer ∧
      e'.pyid = m.pyid ∧ e'.source = m.source := by
  obtain ⟨l1, l2, hb⟩ := List.append_of_mem he
  have hl1 : ∀ x ∈ l1, x.source ≠ m.source := by
    rw [hb, List.map_append, List.map_cons] at hnd
    intro x hx hxs
    have hdisj := (List.nodup_append.mp hnd).2.2
    exact hdisj (List.mem_map_of_mem _ hx)
      (by rw [hxs, ← hes]; exact List.mem_cons_self _ _)
  have hrep : replaceFirstBySrcW b.buffer m =
      some (e, l1 ++ weatherCarry e m :: l2) := by
    rw [hb]; exact replaceFirstBySrcW_append m e l1 l2 hl1 hes
  have hstep : batchStepBySource b m =
      (carryOrder { b with buffer := l1 ++ weatherCarry e m :: l2 } e.pyid m.pyid,
       true) := by
    unfold batchStepBySource
    rw [hrep]
  have hbatch : (batch_replace_by_source b [m]).1 =
      sortIfPriority (carryOrder { b with buffer := l1 ++ weatherCarry e m :: l2 }
        e.pyid m.pyid) := by
    unfold batch_replace_by_source dedupBySource
    simp only [updateLatestBySrc, List.foldl_cons, List.foldl_nil, List.nil_append,
      hstep]
  have hperm : ((batch_replace_by_source b [m]).1.buffer).Perm
      (l1 ++ weatherCarry e m :: l2) := by
    rw [hbatch]
    have h := sortIfPriority_buffer_perm
      (carryOrder { b with buffer := l1 ++ weatherCarry e m :: l2 } e.pyid m.pyid)
    rw [carryOrder_buffer] at h
    exact h
  refine ⟨?_, ?_, ?_⟩
  · rw [hperm.length_eq, hb]
    simp
  · rw [hbatch, sortIfPriority_add_order]
    unfold carryOrder
    rw [show lookupOrder ({ b with buffer := l1 ++ weatherCarry e m :: l2 }
        : MessageBuffer).add_order e.pyid = some o from ho]
    exact lookupOrder_setOrder _ m.pyid o
  · refine ⟨weatherCarry e m, ?_, (weatherCarry_fields e m).2.2.2.2.2.2.2.2,
      (weatherCarry_fields e m).2.2.2.2.1⟩
    exact hperm.mem_iff.mpr (by simp)

/-- C6: in every reachable state of a priority buffer there is at most
one message per source, and a `batch_replace_by_source` insert whose
source is already present replaces that entry in place, carrying over
its insertion-order token (same buffer size, same order token, the
incoming object now owning the slot). -/
theorem C6_one_per_source (b : MessageBuffer) (h : Reached b) :
    (b.buffer.map (fun x => x.source)).Nodup ∧
    ∀ m e o, e ∈ b.buffer → e.source = m.source →
      lookupOrder b.add_order e.pyid = some o →
      (batch_replace_by_source b [m]).1.buffer.length = b.buffer.length ∧
      lookupOrder (batch_replace_by_source b [m]).1.add_order m.pyid = some o ∧
      ∃ e', e' ∈ (batch_replace_by_source b [m]).1.buffer ∧
        e'.pyid = m.pyid ∧ e'.source = m.source := by
  have hnd := sources_nodup_of_reached b h
  exact ⟨hnd, fun m e o he hes ho => batch_singleton_replaces b m e o hnd he hes ho⟩

/-- Witness for C6 at a concrete reachable buffer: one `cenc` entry,
replaced by a newer `cenc` message. -/
def C6mA : MessageItem :=
  { pyid := 21, text := "A", color := "#00FFFF", timestamp := 0,
    message_type := "report", source := "cenc", event_id := "X1" }

def C6mB : MessageItem :=
  { pyid := 22, text := "B", color := "#00FFFF", timestamp := 5,
    message_type := "report", source := "cenc", event_id := "X2" }

def C6buf : MessageBuffer := (batch_replace_by_source initBuffer [C6mA]).1

theorem C6_one_per_source_witness :
    (C6buf.buffer.map (fun x => x.source)).Nodup ∧
    (batch_replace_by_source C6buf [C6mB]).1.buffer.length = C6buf.buffer.length ∧
    lookupOrder (batch_replace_by_source C6buf [C6mB]).1.add_order C6mB.pyid = some 1 ∧
    ∃ e', e' ∈ (batch_replace_by_source C6buf [C6mB]).1.buffer ∧
      e'.pyid = C6mB.pyid ∧ e'.source = C6mB.source := by
  have h := C6_one_per_source C6buf
    (Reached.batch initBuffer [C6mA] Reached.init)
  exact ⟨h.1, h.2 C6mB C6mA 1 (List.Mem.head _) rfl rfl⟩

/-! ## Round-robin machinery (claims C3, C7, C8) -/

theorem ordLe_total (o1 o2 : Option Nat) : ordLe o1 o2 = true ∨ ordLe o2 o1 = true := by
  cases o1 with
  | none =>
    cases o2 with
    | none => exact Or.inl rfl
    | some b => exact Or.inr rfl
  | some a =>
    cases o2 with
    | none => exact Or.inl rfl
    | some b =>
      simp only [ordLe, decide_eq_true_eq]
      exact Nat.le_total a b

theorem ordLe_trans (o1 o2 o3 : Option Nat) (h1 : ordLe o1 o2 = true)
    (h2 : ordLe o2 o3 = true) : ordLe o1 o3 = true := by
  cases o1 with
  | none =>
    cases o2 with
    | none => exact h2
    | some b => exact Bool.noConfusion h1
  | some a =>
    cases o3 with
    | none => rfl
    | some c =>
      cases o2 with
      | none => exact Bool.noConfusion h2
      | some b =>
        simp only [ordLe, decide_eq_true_eq] at *
        exact Nat.le_trans h1 h2

theorem keyLe_total (k1 k2 : Nat × Option Nat) :
    keyLe k1 k2 = true ∨ keyLe k2 k1 = true := by
  rcases k1 with ⟨p1, o1⟩
  rcases k2 with ⟨p2, o2⟩
  simp only [keyLe, Bool.or_eq_true, Bool.and_eq_true, beq_iff_eq,
    decide_eq_true_eq]
  rcases Nat.lt_trichotomy p1 p2 with h | h | h
  · exact Or.inl (Or.inl h)
  · subst h
    rcases ordLe_total o1 o2 with ho | ho
    · exact Or.inl (Or.inr ⟨rfl, ho⟩)
    · exact Or.inr (Or.inr ⟨rfl, ho⟩)
  · exact Or.inr (Or.inl h)

theorem keyLe_trans (k1 k2 k3 : Nat × Option Nat) (h1 : keyLe k1 k2 = true)
    (h2 : keyLe k2 k3 = true) : keyLe k1 k3 = true := by
  rcases k1 with ⟨p1, o1⟩
  rcases k2 with ⟨p2, o2⟩
  rcases k3 with ⟨p3, o3⟩
  simp only [keyLe, Bool.or_eq_true, Bool.and_eq_true, beq_iff_eq,
    decide_eq_true_eq] at *
  rcases h1 with h1 | ⟨he1, ho1⟩
  · rcases h2 with h2 | ⟨he2, ho2⟩
    · exact Or.inl (Nat.lt_trans h1 h2)
    · exact Or.inl (he2 ▸ h1)
  · rcases h2 with h2 | ⟨he2, ho2⟩
    · exact Or.inl (he1 ▸ h2)
    · exact Or.inr ⟨he1.trans he2, ordLe_trans o1 o2 o3 ho1 ho2⟩

theorem msgLe_total (d : List (Nat × Nat)) (a b : MessageItem) :
    msgLe d a b ∨ msgLe d b a :=
  keyLe_total (sortKey d a) (sortKey d b)

theorem msgLe_trans (d : List (Nat × Nat)) (a b c : MessageItem)
    (h1 : msgLe d a b) (h2 : msgLe d b c) : msgLe d a c :=
  keyLe_trans (sortKey d a) (sortKey d b) (sortKey d c) h1 h2

theorem sortMsgs_sorted (d : List (Nat × Nat)) (l : List MessageItem) :
    List.Sorted (msgLe d) (sortMsgs d l) := by
  haveI : IsTotal MessageItem (msgLe d) := ⟨fun a b => msgLe_total d a b⟩
  haveI : IsTrans MessageItem (msgLe d) := ⟨fun a b c => msgLe_trans d a b c⟩
  exact List.sorted_insertionSort _ l

theorem sortMsgs_of_sorted (d : List (Nat × Nat)) (l : List MessageItem)
    (h : List.Sorted (msgLe d) l) : sortMsgs d l = l :=
  List.Sorted.insertionSort_eq h

/-- In a list with pairwise-distinct `pyid`s, the identity search of
`_get_next_by_priority` finds exactly the position the element occupies. -/
theorem findIdx?_pyid_of_get? (l : List MessageItem)
    (hnd : (l.map (fun m => m.pyid)).Nodup) :
    ∀ (j : Nat) (m : MessageItem), l.get? j = some m →
      l.findIdx? (fun x => x.pyid == m.pyid) = some j := by
  induction l with
  | nil => intro j m h; cases h
  | cons a l ih =>
    intro j m h
    rw [List.map_cons, List.nodup_cons] at hnd
    cases j with
    | zero =>
      rw [List.get?_cons_zero] at h
      cases h
      simp [List.findIdx?_cons]
    | succ j =>
      rw [List.get?_cons_succ] at h
      have hmem : m ∈ l := List.get?_mem h
      have hne : (a.pyid == m.pyid) = false := by
        simp only [beq_eq_false_iff_ne, ne_eq]
        intro hcontra
        exact hnd.1 (hcontra ▸ List.mem_map_of_mem _ hmem)
      simp only [List.findIdx?_cons, hne, Bool.false_eq_true, if_false]
      rw [List.findIdx?_succ, ih hnd.2 j m h]
      rfl

theorem _sort_by_priority_fields (b : MessageBuffer) :
    (_sort_by_priority b).use_priority = b.use_priority ∧
    (_sort_by_priority b).current_displaying_msg_id = b.current_displaying_msg_id ∧
    (_sort_by_priority b).max_size = b.max_size ∧
    (_sort_by_priority b).add_order_counter = b.add_order_counter := by
  unfold _sort_by_priority
  split
  · exact ⟨rfl, rfl, rfl, rfl⟩
  · split <;> exact ⟨rfl, rfl, rfl, rfl⟩

/-- A "canonical" round-robin state: the buffer is exactly the sorted
list `s`, the dict is `d`, priority mode is on, and the displayed
pointer designates the element at position `j`. Any `get_next` call on a
non-empty priority buffer leaves the buffer in such a state. -/
def CanonAt (s : List MessageItem) (d : List (Nat × Nat)) (j : Nat)
    (b : MessageBuffer) : Prop :=
  b.buffer = s ∧ b.add_order = d ∧ b.use_priority = true ∧
  ∃ m, s.get? j = some m ∧ b.current_displaying_msg_id = some m.pyid

theorem _sort_by_priority_of_canon (s : List MessageItem) (d : List (Nat × Nat))
    (j : Nat) (b : MessageBuffer)
    (hs : List.Sorted (msgLe d) s) (hnd : (s.map (fun m => m.pyid)).Nodup)
    (hc : CanonAt s d j b) :
    _sort_by_priority b = { b with buffer := s, current_index := j } := by
  obtain ⟨hb, hd, hup, m, hget, hid⟩ := hc
  have hsort : sortMsgs b.add_order b.buffer = s := by
    rw [hb, hd]; exact sortMsgs_of_sorted d s hs
  have hfind : s.findIdx? (fun x => x.pyid == m.pyid) = some j :=
    findIdx?_pyid_of_get? s hnd j m hget
  unfold _sort_by_priority
  rw [hsort, hid]
  rw [Option.some_bind]
  rw [hfind]

theorem nextIndexOf_of_canon (s : List MessageItem) (d : List (Nat × Nat))
    (j : Nat) (b : MessageBuffer)
    (hnd : (s.map (fun m => m.pyid)).Nodup)
    (hb : b.buffer = s) (hj : ∃ m, s.get? j = some m ∧
      b.current_displaying_msg_id = some m.pyid) :
    nextIndexOf b = (j + 1) % s.length := by
  obtain ⟨m, hget, hid⟩ := hj
  have hfind : s.findIdx? (fun x => x.pyid == m.pyid) = some j :=
    findIdx?_pyid_of_get? s hnd j m hget
  unfold nextIndexOf
  rw [hid, hb]
  rw [Option.some_bind]
  rw [hfind]

/-- One canonical `get_next` step: from position `j` the call returns the
element at `(j+1) % n` and moves the pointer there, leaving the buffer
list, the dict and the mode untouched. -/
theorem get_next_canon (s : List MessageItem) (d : List (Nat × Nat)) (j : Nat)
    (b : MessageBuffer)
    (hs : List.Sorted (msgLe d) s) (hnd : (s.map (fun m => m.pyid)).Nodup)
    (hc : CanonAt s d j b) :
    (get_next b).1 = s.get? ((j + 1) % s.length) ∧
    CanonAt s d ((j + 1) % s.length) (get_next b).2 := by
  obtain ⟨hb, hd, hup, m, hget, hid⟩ := hc
  have hlen : j < s.length := (List.get?_eq_some.mp hget).1
  have hpos : 0 < s.length := Nat.lt_of_le_of_lt (Nat.zero_le j) hlen
  have hnil : s ≠ [] := by
    intro h
    rw [h] at hlen
    cases hlen
  have hempty : b.buffer.isEmpty = false := by
    rw [hb]
    cases s with
    | nil => exact absurd rfl hnil
    | cons x xs => rfl
  have hstep : (j + 1) % s.length < s.length := Nat.mod_lt _ hpos
  obtain ⟨m', hget'⟩ : ∃ m', s.get? ((j + 1) % s.length) = some m' :=
    ⟨s.get ⟨(j + 1) % s.length, hstep⟩, List.get?_eq_get hstep⟩
  have hsbp := _sort_by_priority_of_canon s d j b hs hnd ⟨hb, hd, hup, m, hget, hid⟩
  have hnio : nextIndexOf (_sort_by_priority b) = (j + 1) % s.length := by
    rw [hsbp]
    exact nextIndexOf_of_canon s d j { b with buffer := s, current_index := j }
      hnd rfl ⟨m, hget, hid⟩
  have hsbuf : (_sort_by_priority b).buffer = s := by rw [hsbp]
  have hred : get_next b = _get_next_by_priority b := by
    unfold get_next
    rw [if_neg (by rw [hempty]; exact Bool.false_ne_true),
      if_neg (by rw [hup]; simp)]
  have heq : get_next b = (some m',
      { _sort_by_priority b with
          current_index := (j + 1) % s.length
          current_displaying_msg_id := some m'.pyid }) := by
    rw [hred]
    unfold _get_next_by_priority
    rw [if_neg (by rw [hempty]; exact Bool.false_ne_true), hnio, hsbuf, hget']
  refine ⟨by rw [heq, hget'], ?_⟩
  rw [heq]
  refine ⟨hsbuf, ?_, ?_, m', hget', rfl⟩
  · rw [_sort_by_priority_add_order b]
    exact hd
  · rw [(_sort_by_priority_fields b).1]
    exact hup

/-- The position at which a `get_next` round starts from an arbitrary
state: the successor of the located current message in the sorted list,
or 0 when it cannot be located. -/
def startIndexOf (b : MessageBuffer) : Nat :=
  nextIndexOf (_sort_by_priority b)

/-- `k` canonical steps from position `j` return exactly the elements at
positions `j+1, j+2, …` (mod `n`) of the sorted list. -/
theorem getNextTrace_canon (s : List MessageItem) (d : List (Nat × Nat))
    (hs : List.Sorted (msgLe d) s) (hnd : (s.map (fun m => m.pyid)).Nodup) :
    ∀ (k j : Nat) (b : MessageBuffer), CanonAt s d j b →
      (getNextTrace b k).1 =
        (List.range k).filterMap (fun t => s.get? ((j + 1 + t) % s.length)) := by
  intro k
  induction k with
  | zero => intro j b _; rfl
  | succ k ih =>
    intro j b hc
    obtain ⟨hfst, hcan⟩ := get_next_canon s d j b hs hnd hc
    have hrec := ih ((j + 1) % s.length) (get_next b).2 hcan
    obtain ⟨hb, hd, hup, m, hget, hid⟩ := hc
    have hlen : j < s.length := (List.get?_eq_some.mp hget).1
    have hpos : 0 < s.length := Nat.lt_of_le_of_lt (Nat.zero_le j) hlen
    obtain ⟨m', hm'⟩ : ∃ m', s.get? ((j + 1) % s.length) = some m' :=
      ⟨s.get ⟨(j + 1) % s.length, Nat.mod_lt _ hpos⟩,
        List.get?_eq_get (Nat.mod_lt _ hpos)⟩
    show (get_next b).1.toList ++ (getNextTrace (get_next b).2 k).1 = _
    rw [hfst, hrec, hm']
    rw [List.range_succ_eq_map]
    rw [List.filterMap_cons]
    have h0 : s.get? ((j + 1 + 0) % s.length) = some m' := by
      rw [Nat.add_zero]; exact hm'
    rw [h0]
    show m' :: _ = m' :: _
    congr 1
    rw [List.filterMap_map]
    apply List.filterMap_congr
    intro t _
    show s.get? (((j + 1) % s.length + 1 + t) % s.length) =
      s.get? ((j + 1 + (Nat.succ t)) % s.length)
    congr 1
    rw [show (j + 1) % s.length + 1 + t = (j + 1) % s.length + (1 + t) by omega]
    rw [Nat.mod_add_mod]
    congr 1
    omega

theorem filterMap_get?_drop {α : Type} :
    ∀ (s : List α) (j : Nat),
      (List.range (s.length - j)).filterMap (fun t => s.get? (j + t)) = s.drop j := by
  intro s
  induction s with
  | nil =>
    intro j
    simp
  | cons a s ih =>
    intro j
    cases j with
    | zero =>
      show (List.range (s.length + 1 - 0)).filterMap
        (fun t => (a :: s).get? (0 + t)) = a :: s
      rw [Nat.sub_zero, List.range_succ_eq_map, List.filterMap_cons]
      have h0 : (a :: s).get? (0 + 0) = some a := rfl
      rw [h0]
      show a :: _ = a :: s
      congr 1
      rw [List.filterMap_map]
      have hcast : ∀ t ∈ List.range s.length,
          ((fun t => (a :: s).get? (0 + t)) ∘ Nat.succ) t =
            (fun t => s.get? (0 + t)) t := by
        intro t _
        show (a :: s).get? (0 + (t + 1)) = s.get? (0 + t)
        rw [Nat.zero_add, Nat.zero_add]
        exact List.get?_cons_succ
      rw [List.filterMap_congr hcast]
      have := ih 0
      rw [Nat.sub_zero] at this
      rw [this]
      rfl
    | succ j =>
      show (List.range (s.length + 1 - (j + 1))).filterMap
        (fun t => (a :: s).get? (j + 1 + t)) = (a :: s).drop (j + 1)
      rw [Nat.succ_sub_succ]
      have hcast : ∀ t ∈ List.range (s.length - j),
          (fun t => (a :: s).get? (j + 1 + t)) t = (fun t => s.get? (j + t)) t := by
        intro t _
        show (a :: s).get? (j + 1 + t) = s.get? (j + t)
        rw [show j + 1 + t = (j + t) + 1 by omega]
        exact List.get?_cons_succ
      rw [List.filterMap_congr hcast, ih j]
      rfl

theorem filterMap_get?_take {α : Type} :
    ∀ (s : List α) (j : Nat), j ≤ s.length →
      (List.range j).filterMap (fun t => s.get? t) = s.take j := by
  intro s
  induction s with
  | nil =>
    intro j hj
    rw [Nat.le_zero.mp hj]
    rfl
  | cons a s ih =>
    intro j hj
    cases j with
    | zero => rfl
    | succ j =>
      rw [List.range_succ_eq_map, List.filterMap_cons]
      have h0 : (a :: s).get? 0 = some a := rfl
      rw [h0]
      show a :: _ = a :: s.take j
      congr 1
      rw [List.filterMap_map]
      have hcast : ∀ t ∈ List.range j,
          ((fun t => (a :: s).get? t) ∘ Nat.succ) t = (fun t => s.get? t) t := by
        intro t _
        show (a :: s).get? (t + 1) = s.get? t
        exact List.get?_cons_succ
      rw [List.filterMap_congr hcast]
      exact ih j (Nat.le_of_succ_le_succ hj)

/-- The first `get_next` of a round: returns the element of the sorted
list at `startIndexOf` and leaves a canonical state there. -/
theorem get_next_first (b : MessageBuffer) (hprio : b.use_priority = true)
    (hne : b.buffer ≠ [])
    (hnd : ((sortMsgs b.add_order b.buffer).map (fun m => m.pyid)).Nodup) :
    startIndexOf b < (sortMsgs b.add_order b.buffer).length ∧
    (get_next b).1 = (sortMsgs b.add_order b.buffer).get? (startIndexOf b) ∧
    CanonAt (sortMsgs b.add_order b.buffer) b.add_order (startIndexOf b)
      (get_next b).2 := by
  have hperm := sortMsgs_perm b.add_order b.buffer
  have hpos : 0 < (sortMsgs b.add_order b.buffer).length := by
    rw [hperm.length_eq]
    cases hb : b.buffer with
    | nil => exact absurd hb hne
    | cons x xs => simp
  have hempty : b.buffer.isEmpty = false := by
    cases hb : b.buffer with
    | nil => exact absurd hb hne
    | cons x xs => rfl
  have hsbuf : (_sort_by_priority b).buffer = sortMsgs b.add_order b.buffer :=
    _sort_by_priority_buffer b
  have hstart : startIndexOf b < (sortMsgs b.add_order b.buffer).length := by
    unfold startIndexOf nextIndexOf
    cases hsc : (_sort_by_priority b).current_displaying_msg_id.bind
        (fun i => (_sort_by_priority b).buffer.findIdx? (fun m => m.pyid == i)) with
    | none => exact hpos
    | some ci =>
      rw [hsbuf]
      exact Nat.mod_lt _ hpos
  obtain ⟨m0, hm0⟩ : ∃ m0,
      (sortMsgs b.add_order b.buffer).get? (startIndexOf b) = some m0 :=
    ⟨_, List.get?_eq_get hstart⟩
  have hred : get_next b = _get_next_by_priority b := by
    unfold get_next
    rw [if_neg (by rw [hempty]; exact Bool.false_ne_true),
      if_neg (by rw [hprio]; simp)]
  have heq : get_next b = (some m0,
      { _sort_by_priority b with
          current_index := startIndexOf b
          current_displaying_msg_id := some m0.pyid }) := by
    rw [hred]
    unfold _get_next_by_priority
    rw [if_neg (by rw [hempty]; exact Bool.false_ne_true)]
    have : (_sort_by_priority b).buffer.get? (nextIndexOf (_sort_by_priority b)) =
        some m0 := by
      rw [hsbuf]
      exact hm0
    rw [this]
    rfl
  refine ⟨hstart, by rw [heq, hm0], ?_⟩
  rw [heq]
  refine ⟨hsbuf, _sort_by_priority_add_order b, ?_, m0, hm0, rfl⟩
  rw [(_sort_by_priority_fields b).1]
  exact hprio

/-! ## Claim C3: round-robin order of `get_next` -/

/-- C3 (amended): on a non-empty priority buffer, one full round of
`get_next` calls (as many as there are entries) returns exactly the
priority-sorted buffer rotated to begin at `startIndexOf` — the
successor of the currently-displayed entry, or position 0 when it cannot
be located. Hence every entry is returned exactly once before any
repeat (the trace is a permutation of the buffer), the underlying order
is the non-decreasing `(source_priority, insertion_order)` order, but
the returned sequence itself is globally non-decreasing only when the
round starts at position 0. -/
theorem C3_amended_round_robin (b : MessageBuffer)
    (hprio : b.use_priority = true) (hne : b.buffer ≠ [])
    (hnd : (b.buffer.map (fun m => m.pyid)).Nodup) :
    (getNextTrace b b.buffer.length).1 =
      (sortMsgs b.add_order b.buffer).drop (startIndexOf b) ++
        (sortMsgs b.add_order b.buffer).take (startIndexOf b) ∧
    ((getNextTrace b b.buffer.length).1).Perm b.buffer ∧
    List.Sorted (msgLe b.add_order) (sortMsgs b.add_order b.buffer) := by
  have hperm : (sortMsgs b.add_order b.buffer).Perm b.buffer := sortMsgs_perm _ _
  have hsorted : List.Sorted (msgLe b.add_order) (sortMsgs b.add_order b.buffer) :=
    sortMsgs_sorted _ _
  have hsnd : ((sortMsgs b.add_order b.buffer).map (fun m => m.pyid)).Nodup :=
    ((hperm.map _).nodup_iff).mpr hnd
  obtain ⟨hstart, hfst, hcan⟩ := get_next_first b hprio hne hsnd
  have hlen : b.buffer.length = (sortMsgs b.add_order b.buffer).length :=
    hperm.length_eq.symm
  have hpos : 0 < (sortMsgs b.add_order b.buffer).length :=
    Nat.lt_of_le_of_lt (Nat.zero_le _) hstart
  obtain ⟨m0, hm0⟩ : ∃ m0,
      (sortMsgs b.add_order b.buffer).get? (startIndexOf b) = some m0 :=
    ⟨_, List.get?_eq_get hstart⟩
  obtain ⟨n', hn'⟩ : ∃ n', b.buffer.length = n' + 1 := by
    refine ⟨b.buffer.length - 1, ?_⟩
    have : 0 < b.buffer.length := by rw [hlen]; exact hpos
    omega
  have htr : (getNextTrace b b.buffer.length).1 =
      (List.range (sortMsgs b.add_order b.buffer).length).filterMap
        (fun t => (sortMsgs b.add_order b.buffer).get?
          ((startIndexOf b + t) % (sortMsgs b.add_order b.buffer).length)) := by
    rw [hn']
    show (get_next b).1.toList ++ (getNextTrace (get_next b).2 n').1 = _
    rw [hfst, hm0]
    rw [getNextTrace_canon (sortMsgs b.add_order b.buffer) b.add_order hsorted hsnd
      n' (startIndexOf b) (get_next b).2 hcan]
    rw [show (sortMsgs b.add_order b.buffer).length = n' + 1 from by rw [← hlen, hn']]
    rw [List.range_succ_eq_map, List.filterMap_cons]
    have h0 : (sortMsgs b.add_order b.buffer).get?
        ((startIndexOf b + 0) % (n' + 1)) = some m0 := by
      rw [Nat.add_zero, Nat.mod_eq_of_lt (by rw [← hlen, hn'] at hstart; exact hstart)]
      exact hm0
    rw [h0]
    show m0 :: _ = m0 :: _
    congr 1
    rw [List.filterMap_map]
    apply List.filterMap_congr
    intro t _
    show (sortMsgs b.add_order b.buffer).get? ((startIndexOf b + 1 + t) % (n' + 1)) =
      (sortMsgs b.add_order b.buffer).get? ((startIndexOf b + Nat.succ t) % (n' + 1))
    rw [show startIndexOf b + 1 + t = startIndexOf b + Nat.succ t from by omega]
  have hmain : (getNextTrace b b.buffer.length).1 =
      (sortMsgs b.add_order b.buffer).drop (startIndexOf b) ++
        (sortMsgs b.add_order b.buffer).take (startIndexOf b) := by
    rw [htr]
    rw [show List.range (sortMsgs b.add_order b.buffer).length =
        List.range (((sortMsgs b.add_order b.buffer).length - startIndexOf b) +
          startIndexOf b) from by congr 1; omega]
    rw [List.range_add, List.filterMap_append]
    congr 1
    · have hcast : ∀ t ∈ List.range
          ((sortMsgs b.add_order b.buffer).length - startIndexOf b),
          (fun t => (sortMsgs b.add_order b.buffer).get?
            ((startIndexOf b + t) % (sortMsgs b.add_order b.buffer).length)) t =
          (fun t => (sortMsgs b.add_order b.buffer).get? (startIndexOf b + t)) t := by
        intro t ht
        have := List.mem_range.mp ht
        show (sortMsgs b.add_order b.buffer).get?
            ((startIndexOf b + t) % (sortMsgs b.add_order b.buffer).length) =
          (sortMsgs b.add_order b.buffer).get? (startIndexOf b + t)
        congr 1
        exact Nat.mod_eq_of_lt (by omega)
      rw [List.filterMap_congr hcast]
      exact filterMap_get?_drop (sortMsgs b.add_order b.buffer) (startIndexOf b)
    · rw [List.filterMap_map]
      have hcast : ∀ t ∈ List.range (startIndexOf b),
          ((fun t => (sortMsgs b.add_order b.buffer).get?
            ((startIndexOf b + t) % (sortMsgs b.add_order b.buffer).length)) ∘
            (fun x => ((sortMsgs b.add_order b.buffer).length - startIndexOf b) + x)) t
            = (fun t => (sortMsgs b.add_order b.buffer).get? t) t := by
        intro t ht
        have htlt := List.mem_range.mp ht
        show (sortMsgs b.add_order b.buffer).get?
            ((startIndexOf b + (((sortMsgs b.add_order b.buffer).length -
              startIndexOf b) + t)) % (sortMsgs b.add_order b.buffer).length) =
          (sortMsgs b.add_order b.buffer).get? t
        congr 1
        rw [show startIndexOf b + (((sortMsgs b.add_order b.buffer).length -
            startIndexOf b) + t) = (sortMsgs b.add_order b.buffer).length + t from
          by omega]
        rw [Nat.add_mod_left]
        exact Nat.mod_eq_of_lt (by omega)
      rw [List.filterMap_congr hcast]
      exact filterMap_get?_take (sortMsgs b.add_order b.buffer) (startIndexOf b)
        (le_of_lt hstart)
  refine ⟨hmain, ?_, hsorted⟩
  rw [hmain]
  have h1 : ((sortMsgs b.add_order b.buffer).drop (startIndexOf b) ++
      (sortMsgs b.add_order b.buffer).take (startIndexOf b)).Perm
        ((sortMsgs b.add_order b.buffer).take (startIndexOf b) ++
          (sortMsgs b.add_order b.buffer).drop (startIndexOf b)) :=
    List.perm_append_comm
  refine h1.trans ?_
  rw [List.take_append_drop]
  exact hperm

def C3jma : MessageItem :=
  { pyid := 31, text := "J", color := "#FF0000", timestamp := 1,
    message_type := "warning", source := "jma", event_id := "E1" }

def C3fan : MessageItem :=
  { pyid := 32, text := "F", color := "#00FFFF", timestamp := 0,
    message_type := "report", source := "fanstudio" }

/-- A reachable two-entry priority buffer whose displayed entry is the
head (priority 0 `jma` before priority 99 `fanstudio`): add both, then
one `get_next` (which returns the head and parks the pointer there). -/
def C3cb : MessageBuffer :=
  (get_next (addMsg (addMsg initBuffer C3jma) C3fan)).2

/-- C3 counterexample: from a state whose displayed entry is the sorted
head, one full round of `get_next` returns `fanstudio` (key `(99, 2)`)
and then `jma` (key `(0, 1)`) — each entry exactly once, but **not** in
non-decreasing `(source_priority, insertion_order)` order, because the
round starts at position 1 and wraps. -/
theorem C3_counterexample :
    C3cb.use_priority = true ∧ C3cb.buffer.length = 2 ∧
    (getNextTrace C3cb 2).1.map (fun m => m.source) = ["fanstudio", "jma"] ∧
    ¬ List.Sorted (msgLe C3cb.add_order) (getNextTrace C3cb 2).1 := by
  decide

/-- Witness for the amended C3 at the concrete buffer of the
counterexample: the full round is the sorted list rotated by
`startIndexOf C3cb = 1`. -/
theorem C3_amended_round_robin_witness :
    (getNextTrace C3cb C3cb.buffer.length).1 =
      (sortMsgs C3cb.add_order C3cb.buffer).drop (startIndexOf C3cb) ++
        (sortMsgs C3cb.add_order C3cb.buffer).take (startIndexOf C3cb) ∧
    ((getNextTrace C3cb C3cb.buffer.length).1).Perm C3cb.buffer ∧
    List.Sorted (msgLe C3cb.add_order) (sortMsgs C3cb.add_order C3cb.buffer) :=
  C3_amended_round_robin C3cb rfl (by decide) (by decide)

/-! ## Claim C8: demotion to Report mode -/

def C8X : MessageItem :=
  { pyid := 41, text := "X", color := "#FFF500", timestamp := 0,
    message_type := "weather", source := "weatheralarm" }

def C8Y : MessageItem :=
  { pyid := 42, text := "Y", color := "#00FFFF", timestamp := 1,
    message_type := "report", source := "cenc" }

def C8Z : MessageItem :=
  { pyid := 43, text := "Z", color := "#00FFFF", timestamp := 2,
    message_type := "report", source := "usgs" }

/-- Report buffer whose round-robin was at `cenc` (index 1) when a
warning took over the display. -/
def C8rb : MessageBuffer :=
  { initBuffer with
      buffer := [C8X, C8Y, C8Z]
      add_order := [(41, 1), (42, 2), (43, 3)]
      add_order_counter := 3
      current_index := 1
      current_displaying_msg_id := some 42 }

def C8st : ArbiterState :=
  { warningBuffer := initBuffer
    reportBuffer := C8rb
    current_display_type := some "warning"
    current_displaying_message := none
    pending_update_message := none
    switching_to_report := false
    is_scrolling := false
    now := 50 }

/-- C8 counterexample: demoting from Warning mode displays the
top-priority entry `weatheralarm` (index 0) and resets `current_index`,
but leaves `_current_displaying_msg_id` pointing at the pre-warning
entry `cenc`; the next `get_next()` therefore returns `usgs` — the
successor of the pre-warning position — not `cenc`, the successor of the
just-displayed index-0 entry, as the claim requires. -/
theorem C8_counterexample :
    (_switch_to_report_mode C8st).2 = [⟨"X", "#FFF500", none, true⟩] ∧
    (_switch_to_report_mode C8st).1.reportBuffer.current_index = 0 ∧
    (_switch_to_report_mode C8st).1.current_displaying_message = some C8X ∧
    (_switch_to_report_mode C8st).1.reportBuffer.current_displaying_msg_id =
      some 42 ∧
    ((get_next (_switch_to_report_mode C8st).1.reportBuffer).1.map
      (fun m => m.source)) = some "usgs" := by
  decide

/-- C8 (amended): when the Warning Buffer empties while a warning is
displayed and the Report Buffer is non-empty (and no scroll is active),
the arbiter demotes: it shows the index-0 (top-priority) entry with a
forced `update_text`, resets `current_index` to 0, and enters Report
mode — but the buffer's displayed-identity pointer is left at the entry
shown before the warning, so the following `get_next()` continues from
that entry's position (its successor, wrapping), not from index 0. -/
theorem C8_amended_demote (st : ArbiterState) (x : MessageItem)
    (rest : List MessageItem)
    (hdisp : st.current_display_type = some "warning")
    (hflag : st.switching_to_report = false)
    (hscroll : st.is_scrolling = false)
    (hbuf : st.reportBuffer.buffer = x :: rest) :
    (_switch_to_report_mode st).2 = [⟨x.text, x.color, x.image_path, true⟩] ∧
    (_switch_to_report_mode st).1.current_display_type = some "report" ∧
    (_switch_to_report_mode st).1.current_displaying_message = some x ∧
    (_switch_to_report_mode st).1.reportBuffer.current_index = 0 ∧
    (_switch_to_report_mode st).1.reportBuffer.buffer = x :: rest ∧
    (_switch_to_report_mode st).1.reportBuffer.current_displaying_msg_id =
      st.reportBuffer.current_displaying_msg_id ∧
    (∀ j : Nat, List.Sorted (msgLe st.reportBuffer.add_order) (x :: rest) →
      ((x :: rest).map (fun m => m.pyid)).Nodup →
      st.reportBuffer.use_priority = true →
      (∃ m, (x :: rest).get? j = some m ∧
        st.reportBuffer.current_displaying_msg_id = some m.pyid) →
      (get_next (_switch_to_report_mode st).1.reportBuffer).1 =
        (x :: rest).get? ((j + 1) % (x :: rest).length)) := by
  have hb2 : ({ st.reportBuffer with current_index := 0 } : MessageBuffer).buffer.head?
      = some x := by
    show st.reportBuffer.buffer.head? = some x
    rw [hbuf]
    rfl
  have hred : _switch_to_report_mode st =
      _do_switch_to_report
        { st with reportBuffer := { st.reportBuffer with current_index := 0 },
                  switching_to_report := true } x := by
    unfold _switch_to_report_mode
    rw [if_pos (by rw [hdisp]; rfl)]
    rw [if_neg (by rw [hflag]; exact Bool.false_ne_true)]
    rw [if_pos (by rw [hbuf]; simp)]
    rw [if_pos (by rw [hscroll]; simp)]
    simp only [hb2]
  have hdo : _do_switch_to_report
      { st with reportBuffer := { st.reportBuffer with current_index := 0 },
                switching_to_report := true } x =
      ({ st with reportBuffer := { st.reportBuffer with current_index := 0 },
                 current_display_type := some "report",
                 current_displaying_message := some x,
                 pending_update_message := none,
                 is_scrolling := true,
                 switching_to_report := false },
       [⟨x.text, x.color, x.image_path, true⟩]) := by
    unfold _do_switch_to_report
    rw [show ({ st with
          reportBuffer := { st.reportBuffer with current_index := 0 },
          switching_to_report := true } : ArbiterState).is_scrolling = false
        from hscroll]
    rfl
  rw [hred, hdo]
  refine ⟨rfl, rfl, rfl, rfl, ?_, rfl, ?_⟩
  · show st.reportBuffer.buffer = x :: rest
    exact hbuf
  · intro j hsorted hnd hup hptr
    have hcanon : CanonAt (x :: rest) st.reportBuffer.add_order j
        ({ st.reportBuffer with current_index := 0 }) := by
      exact ⟨hbuf, rfl, hup, hptr⟩
    exact (get_next_canon (x :: rest) st.reportBuffer.add_order j
      ({ st.reportBuffer with current_index := 0 }) hsorted hnd hcanon).1

/-- Witness for the amended C8 at the concrete demotion state. -/
theorem C8_amended_demote_witness :
    (_switch_to_report_mode C8st).2 =
      [⟨C8X.text, C8X.color, C8X.image_path, true⟩] ∧
    (_switch_to_report_mode C8st).1.current_display_type = some "report" ∧
    (_switch_to_report_mode C8st).1.current_displaying_message = some C8X ∧
    (_switch_to_report_mode C8st).1.reportBuffer.current_index = 0 ∧
    (_switch_to_report_mode C8st).1.reportBuffer.buffer = [C8X] ++ [C8Y, C8Z] ∧
    (_switch_to_report_mode C8st).1.reportBuffer.current_displaying_msg_id =
      C8st.reportBuffer.current_displaying_msg_id ∧
    (∀ j : Nat, List.Sorted (msgLe C8st.reportBuffer.add_order) (C8X :: [C8Y, C8Z]) →
      ((C8X :: [C8Y, C8Z]).map (fun m => m.pyid)).Nodup →
      C8st.reportBuffer.use_priority = true →
      (∃ m, (C8X :: [C8Y, C8Z]).get? j = some m ∧
        C8st.reportBuffer.current_displaying_msg_id = some m.pyid) →
      (get_next (_switch_to_report_mode C8st).1.reportBuffer).1 =
        (C8X :: [C8Y, C8Z]).get? ((j + 1) % (C8X :: [C8Y, C8Z]).length)) :=
  C8_amended_demote C8st C8X [C8Y, C8Z] rfl rfl rfl rfl

/-! ## Claim C7: cancellation handling -/

theorem get_next_mem (b : MessageBuffer) (m : MessageItem)
    (h : (get_next b).1 = some m) : m ∈ b.buffer := by
  have hperm := sortMsgs_perm b.add_order b.buffer
  unfold get_next at h
  split at h
  · cases h
  · split at h
    · split at h
      · cases h
        exact List.get?_mem (by assumption)
      · cases h
    · unfold _get_next_by_priority at h
      split at h
      · cases h
      · split at h
        · cases h
          have hmem : m ∈ (_sort_by_priority b).buffer :=
            List.get?_mem (by assumption)
          rw [_sort_by_priority_buffer] at hmem
          exact hperm.mem_iff.mp hmem
        · cases h

theorem get_next_all_kept (b : MessageBuffer) (P : MessageItem → Prop)
    (h : ∀ m ∈ b.buffer, P m) : ∀ m ∈ (get_next b).2.buffer, P m := by
  intro m hm
  exact h m ((get_next_buffer_perm b).mem_iff.mp hm)

theorem getNextTrace_all (P : MessageItem → Prop) :
    ∀ (k : Nat) (b : MessageBuffer), (∀ m ∈ b.buffer, P m) →
      ∀ m ∈ (getNextTrace b k).1, P m := by
  intro k
  induction k with
  | zero => intro b _ m hm; cases hm
  | succ k ih =>
    intro b hb m hm
    show P m
    have : m ∈ (get_next b).1.toList ++ (getNextTrace (get_next b).2 k).1 := hm
    rcases List.mem_append.mp this with h | h
    · cases hfst : (get_next b).1 with
      | none => rw [hfst] at h; cases h
      | some m' =>
        rw [hfst] at h
        rw [List.mem_singleton.mp h]
        exact hb m' (get_next_mem b m' hfst)
    · exact ih (get_next b).2 (get_next_all_kept b P hb) m h

theorem _do_switch_to_report_warning_buffer (st : ArbiterState) (m : MessageItem) :
    (_do_switch_to_report st m).1.warningBuffer = st.warningBuffer := by
  unfold _do_switch_to_report
  dsimp only
  split <;> rfl

theorem _switch_to_report_mode_warning_buffer (st : ArbiterState) :
    (_switch_to_report_mode st).1.warningBuffer = st.warningBuffer := by
  unfold _switch_to_report_mode
  split
  · split
    · rfl
    · split
      · split
        · dsimp only
          split
          · exact _do_switch_to_report_warning_buffer _ _
          · rfl
        · rfl
      · rfl
  · split
    · rfl
    · rfl

theorem _switch_to_report_mode_calls_of_scrolling (st : ArbiterState)
    (h : st.is_scrolling = true) : (_switch_to_report_mode st).2 = [] := by
  unfold _switch_to_report_mode
  simp only [h, Bool.not_true, Bool.false_eq_true, if_false]
  split
  · split
    · rfl
    · split
      · rfl
      · rfl
  · split
    · rfl
    · rfl

/-- `jmaAfterNotice` on a state whose notice scroll is running: the
warning buffer is only permuted (by `get_next`'s re-sort) and the
accumulated calls pass through unchanged. -/
theorem jmaAfterNotice_wb (st : ArbiterState) (calls : List DisplayCall)
    (hscroll : st.is_scrolling = true) :
    (jmaAfterNotice st calls).1.warningBuffer.buffer.Perm
      st.warningBuffer.buffer ∧
    (jmaAfterNotice st calls).2 = calls := by
  unfold jmaAfterNotice
  constructor
  · split
    · split
      · rcases hsw : _switch_to_report_mode st with ⟨stR, cR⟩
        have h1 := _switch_to_report_mode_warning_buffer st
        rw [hsw] at h1
        dsimp only at h1 ⊢
        rw [h1]
      · exact List.Perm.refl _
    · rcases hg : get_next st.warningBuffer with ⟨nx, wb2⟩
      have h2 := get_next_buffer_perm st.warningBuffer
      rw [hg] at h2
      dsimp only at h2 ⊢
      cases nx with
      | none => exact h2
      | some nm =>
        simp only [hscroll, Bool.not_true, Bool.false_eq_true, if_false]
        exact h2
  · split
    · split
      · rcases hsw : _switch_to_report_mode st with ⟨stR, cR⟩
        have h1 := _switch_to_report_mode_calls_of_scrolling st hscroll
        rw [hsw] at h1
        dsimp only at h1 ⊢
        rw [h1, List.append_nil]
      · rfl
    · rcases hg : get_next st.warningBuffer with ⟨nx, wb2⟩
      cases nx with
      | none => rfl
      | some nm =>
        simp only [hscroll, Bool.not_true, Bool.false_eq_true, if_false]

/-- The jma-cancel branch when the displayed message is among the
removed `(jma, eid)` entries: the resulting warning buffer is (a
permutation of) the filtered list, and the first display call is the
forced cancellation notice built from the displayed message's
organization head. -/
theorem jmaCancelBranch_spec (cfg : MessageConfig) (st : ArbiterState)
    (eid : String) (cm : MessageItem)
    (hcm : st.current_displaying_message = some cm)
    (hcms : cm.source = "jma") (hcme : cm.event_id = eid) :
    (jmaCancelBranch cfg st eid).1.warningBuffer.buffer.Perm
      (st.warningBuffer.buffer.filter
        (fun m => !(m.source == "jma" && m.event_id == eid))) ∧
    (jmaCancelBranch cfg st eid).2.head? =
      some ⟨noticeHead "jma" (some cm) ++ "收到取消报，撤回当前预警信息",
        cfg.warning_color, none, true⟩ := by
  have hb : (cm.source == "jma" && cm.event_id == eid) = true := by
    rw [hcms, hcme]
    simp
  unfold jmaCancelBranch _show_cancellation_notice
  simp only [hcm, hb, if_true]
  constructor
  · exact (jmaAfterNotice_wb _ _ rfl).1
  · rw [(jmaAfterNotice_wb _ _ rfl).2]
    rfl

def C7msg : MessageItem :=
  { pyid := 71, text := "【sa预警】Q", color := "#FF0000", timestamp := 0,
    message_type := "warning", source := "sa", event_id := "E1",
    shock_time := some "", first_displayed_at := some 0 }

def C7wb : MessageBuffer :=
  { initBuffer with
      buffer := [C7msg]
      add_order := [(71, 1)]
      add_order_counter := 1
      current_displaying_msg_id := some 71 }

/-- A state displaying the `(sa, E1)` warning. -/
def C7st : ArbiterState :=
  { warningBuffer := C7wb
    reportBuffer := initBuffer
    current_display_type := some "warning"
    current_displaying_message := some C7msg
    pending_update_message := none
    switching_to_report := false
    is_scrolling := false
    now := 100 }

def C7pd : ParsedData :=
  { type := "warning", source_type := "sa", cancel := true,
    event_id := "E1", shock_time := "" }

/-- C7 counterexample: a cancel-flagged warning event from source `sa`
with `event_id = "E1"`, received while the `(sa, E1)` warning is the
displayed message, takes the ordinary admission path — the cancel
branch of `on_message_received` fires only for source `jma`.  The
matching buffer entry is **not** removed, no cancellation notice is
emitted, and a fresh `(sa, E1)` item is enqueued for insertion — the
opposite of removal-without-insertion. -/
theorem C7_counterexample :
    C7st.current_displaying_message = some C7msg ∧
    C7msg.source = "sa" ∧ C7msg.event_id = "E1" ∧
    C7pd.cancel = true ∧ C7pd.event_id = "E1" ∧
    C7st.warningBuffer.buffer = [C7msg] ∧
    (on_message_received (fun _ => some "W") (fun _ _ => "#FF0000")
        (fun _ => none) {} (fun _ => some 0) 72 C7st "sa" C7pd).st = C7st ∧
    (on_message_received (fun _ => some "W") (fun _ _ => "#FF0000")
        (fun _ => none) {} (fun _ => some 0) 72 C7st "sa" C7pd).calls = [] ∧
    (on_message_received (fun _ => some "W") (fun _ _ => "#FF0000")
        (fun _ => none) {} (fun _ => some 0) 72 C7st "sa" C7pd).enqueued =
      some { pyid := 72, text := "W", color := "#FF0000", timestamp := 100,
             message_type := "warning", source := "sa", event_id := "E1",
             shock_time := some "", first_displayed_at := none } := by
  decide

/-- C7 (amended): the cancellation path exists only for source `jma`.
For a cancel-flagged jma warning event with non-empty `event_id`
received while a `(jma, event_id)` warning is displayed: nothing is
enqueued, the warning buffer afterwards holds exactly the entries that
do not match `(jma, event_id)`, the first display call is the forced
cancellation notice reusing the displayed message's organization head,
and no later `get_next()` on the warning buffer ever returns a
`(jma, event_id)` entry. -/
theorem C7_amended_jma_cancel (fmt : ParsedData → Option String)
    (colorFn : String → ParsedData → String)
    (weatherImg : ParsedData → Option String)
    (cfg : MessageConfig) (parseT : String → Option Int) (newPyid : Nat)
    (st : ArbiterState) (pd : ParsedData) (cm : MessageItem) (r : RecvResult)
    (hr : on_message_received fmt colorFn weatherImg cfg parseT newPyid st
            "jma" pd = r)
    (hty : pd.type = "warning") (hcancel : pd.cancel = true)
    (heid : pd.event_id ≠ "")
    (hcm : st.current_displaying_message = some cm)
    (hcms : cm.source = "jma") (hcme : cm.event_id = pd.event_id) :
    r.enqueued = none ∧
    (∀ m : MessageItem, m ∈ r.st.warningBuffer.buffer ↔
       m ∈ st.warningBuffer.buffer ∧
         ¬(m.source = "jma" ∧ m.event_id = pd.event_id)) ∧
    r.calls.head? =
      some ⟨noticeHead "jma" (some cm) ++ "收到取消报，撤回当前预警信息",
        cfg.warning_color, none, true⟩ ∧
    ∀ (k : Nat) (m : MessageItem), m ∈ (getNextTrace r.st.warningBuffer k).1 →
      ¬(m.source = "jma" ∧ m.event_id = pd.event_id) := by
  have hb : (pd.type == "warning" && "jma" == "jma" && pd.cancel) = true := by
    rw [hty, hcancel]
    rfl
  have heid' : (pd.event_id != "") = true := by
    simpa using heid
  have heq : r = ⟨(jmaCancelBranch cfg st pd.event_id).1, none,
      (jmaCancelBranch cfg st pd.event_id).2⟩ := by
    rw [← hr]
    rcases hj : jmaCancelBranch cfg st pd.event_id with ⟨a, b⟩
    simp only [on_message_received, hb, heid', if_true, hj]
  obtain ⟨hperm, hhead⟩ := jmaCancelBranch_spec cfg st pd.event_id cm hcm hcms hcme
  have hmemiff : ∀ m : MessageItem,
      m ∈ (jmaCancelBranch cfg st pd.event_id).1.warningBuffer.buffer ↔
        m ∈ st.warningBuffer.buffer ∧
          ¬(m.source = "jma" ∧ m.event_id = pd.event_id) := by
    intro m
    rw [hperm.mem_iff, List.mem_filter]
    constructor
    · intro h
      refine ⟨h.1, ?_⟩
      have := h.2
      simp only [Bool.not_eq_true', Bool.and_eq_false_iff, beq_eq_false_iff_ne,
        ne_eq] at this
      tauto
    · intro h
      refine ⟨h.1, ?_⟩
      simp only [Bool.not_eq_true', Bool.and_eq_false_iff, beq_eq_false_iff_ne,
        ne_eq]
      tauto
  subst heq
  refine ⟨rfl, hmemiff, hhead, ?_⟩
  intro k m hm
  exact getNextTrace_all
    (fun x => ¬(x.source = "jma" ∧ x.event_id = pd.event_id)) k
    (jmaCancelBranch cfg st pd.event_id).1.warningBuffer
    (fun x hx => (hmemiff x).mp hx |>.2) m hm

def C7jmsg : MessageItem :=
  { pyid := 73, text := "【気象庁】強い揺れ", color := "#FF0000", timestamp := 0,
    message_type := "warning", source := "jma", event_id := "J1",
    shock_time := some "", first_displayed_at := some 0 }

def C7jst : ArbiterState :=
  { warningBuffer :=
      { initBuffer with
          buffer := [C7jmsg]
          add_order := [(73, 1)]
          add_order_counter := 1
          current_displaying_msg_id := some 73 }
    reportBuffer := initBuffer
    current_display_type := some "warning"
    current_displaying_message := some C7jmsg
    pending_update_message := none
    switching_to_report := false
    is_scrolling := false
    now := 100 }

def C7jpd : ParsedData :=
  { type := "warning", source_type := "jma", cancel := true,
    event_id := "J1", shock_time := "" }

/-- Witness for the amended C7 at a concrete jma cancellation. -/
theorem C7_amended_jma_cancel_witness :
    (on_message_received (fun _ => some "W") (fun _ _ => "#FF0000")
        (fun _ => none) {} (fun _ => some 0) 74 C7jst "jma" C7jpd).enqueued
      = none ∧
    (∀ m : MessageItem,
       m ∈ (on_message_received (fun _ => some "W") (fun _ _ => "#FF0000")
              (fun _ => none) {} (fun _ => some 0) 74 C7jst "jma"
              C7jpd).st.warningBuffer.buffer ↔
         m ∈ C7jst.warningBuffer.buffer ∧
           ¬(m.source = "jma" ∧ m.event_id = C7jpd.event_id)) ∧
    (on_message_received (fun _ => some "W") (fun _ _ => "#FF0000")
        (fun _ => none) {} (fun _ => some 0) 74 C7jst "jma" C7jpd).calls.head?
      = some ⟨noticeHead "jma" (some C7jmsg) ++ "收到取消报，撤回当前预警信息",
          MessageConfig.warning_color {}, none, true⟩ ∧
    ∀ (k : Nat) (m : MessageItem),
      m ∈ (getNextTrace (on_message_received (fun _ => some "W")
             (fun _ _ => "#FF0000") (fun _ => none) {} (fun _ => some 0) 74
             C7jst "jma" C7jpd).st.warningBuffer k).1 →
        ¬(m.source = "jma" ∧ m.event_id = C7jpd.event_id) :=
  C7_amended_jma_cancel (fun _ => some "W") (fun _ _ => "#FF0000")
    (fun _ => none) {} (fun _ => some 0) 74 C7jst C7jpd C7jmsg _ rfl
    rfl rfl (by decide) rfl rfl rfl

end RollingSubtitle
